import Mathlib

/-!
Verification development for the moon_script scripting engine core.

The Rust sources are shallowly embedded: values, the operator table, the
registry lookups, the compile-time value builder, the liveness/compaction
rewrite and the three executors (tree walker, flattened-arena recursive
walker, flattened-arena stack walker) are translated into executable Lean
definitions, and the specification claims are settled against them.

Modelling conventions, used throughout and noted again at each definition:
- Rust `i128` is `Int`; overflow is explicit through the `checked*` helpers
  that test the `[-2^127, 2^127-1]` range.
- Rust `f64` payloads are carried as exact rationals (`Rat`). No settled
  theorem depends on IEEE-754 rounding, NaN or infinities; wherever a float
  computation feeds a settled theorem its outcome is fully determined (for
  example `x / 0.0` is never a normal float).
- `HashMap` registries are association lists; iteration order models the
  sorted order of the `BTreeMap` used by the `no_std` build.
- Host callables (`VBFunction` / `MoonFunction`) receive the lazily resolved
  argument results as a list of per-argument `Except` outcomes.
- Possibly diverging execution is fuelled: `none` means fuel ran out (or an
  `unreachable!()` / panic was hit, which produces no result either).
-/

namespace MoonScript

/-- Scalar value universe (src/src/value.rs, `MoonValue`; structurally identical
to `VBValue` of src/src/parsing/value_parsing/mod.rs and to `ReducedValue` of
the older modules). `f64` payloads are modelled as exact rationals. -/
inductive MoonValue where
  | Null : MoonValue
  | Boolean (b : Bool) : MoonValue
  | Integer (i : Int) : MoonValue
  | Decimal (d : Rat) : MoonValue
  | String (s : String) : MoonValue
  | Array (xs : List MoonValue) : MoonValue

mutual

/-- Structural equality test for `MoonValue` (the derived `PartialEq`). -/
def MoonValue.beq : MoonValue → MoonValue → Bool
  | .Null, .Null => true
  | .Boolean a, .Boolean b => a == b
  | .Integer a, .Integer b => a == b
  | .Decimal a, .Decimal b => a == b
  | .String a, .String b => a == b
  | .Array a, .Array b => MoonValue.beqList a b
  | _, _ => false

/-- Elementwise structural equality of value lists. -/
def MoonValue.beqList : List MoonValue → List MoonValue → Bool
  | [], [] => true
  | a :: as', b :: bs' => MoonValue.beq a b && MoonValue.beqList as' bs'
  | _, _ => false

end

/-- `i128::MAX`. -/
def INT_MAX : Int := 2 ^ 127 - 1

/-- `i128::MIN`. -/
def INT_MIN : Int := -(2 ^ 127)

/-- Value of a decimal digit character. -/
def digitVal (c : Char) : Option Nat :=
  if c.isDigit then some (c.toNat - Char.toNat '0') else none

/-- Accumulate a digit list into a natural number; fails on a non-digit. -/
def parseDigits (cs : List Char) : Option Nat :=
  cs.foldlM (fun acc c => (digitVal c).map (fun d => acc * 10 + d)) 0

/-- Rust `i128::from_str`: optional sign, at least one digit, all digits,
result range-checked against the `i128` bounds. -/
def i128FromStr (s : String) : Option Int :=
  let cs := s.toList
  let signAndDigits : Int × List Char :=
    match cs with
    | '-' :: rest => (-1, rest)
    | '+' :: rest => (1, rest)
    | _ => (1, cs)
  if signAndDigits.2.isEmpty then none
  else
    match parseDigits signAndDigits.2 with
    | none => none
    | some n =>
      let v : Int := signAndDigits.1 * (n : Int)
      if INT_MIN ≤ v ∧ v ≤ INT_MAX then some v else none

/-- Exact model of Rust `f64::from_str` on ordinary decimal literals:
optional sign, digits, optional fraction, optional exponent; at least one
digit must be present. Special forms (`inf`, `NaN`, hex) are not representable
as rationals and are modelled as parse failures; no settled theorem depends
on them or on the rounding of an accepted literal. -/
def f64FromStrModel (s : String) : Option Rat :=
  let cs := s.toList
  let signAndRest : Rat × List Char :=
    match cs with
    | '-' :: rest => (-1, rest)
    | '+' :: rest => (1, rest)
    | _ => (1, cs)
  let intPart := signAndRest.2.takeWhile Char.isDigit
  let afterInt := signAndRest.2.dropWhile Char.isDigit
  let fracAndRest : List Char × List Char :=
    match afterInt with
    | '.' :: rest => (rest.takeWhile Char.isDigit, rest.dropWhile Char.isDigit)
    | _ => ([], afterInt)
  if intPart.isEmpty ∧ fracAndRest.1.isEmpty then none
  else
    let mantissa : Option Rat :=
      match parseDigits intPart, parseDigits fracAndRest.1 with
      | some ip, some fp =>
        some (signAndRest.1 * ((ip : Rat) + (fp : Rat) / ((10 : Rat) ^ fracAndRest.1.length)))
      | some ip, none => if fracAndRest.1.isEmpty then some (signAndRest.1 * (ip : Rat)) else none
      | none, some fp =>
        if intPart.isEmpty then
          some (signAndRest.1 * ((fp : Rat) / ((10 : Rat) ^ fracAndRest.1.length)))
        else none
      | none, none => none
    match mantissa with
    | none => none
    | some m =>
      match fracAndRest.2 with
      | [] => some m
      | 'e' :: erest =>
        match
          (match erest with
            | '-' :: ds => ((-1 : Int), ds)
            | '+' :: ds => ((1 : Int), ds)
            | ds => ((1 : Int), ds)) with
        | (esign, ds) =>
          if ds.isEmpty ∨ ¬ ds.all Char.isDigit then none
          else (parseDigits ds).map (fun e =>
            if esign < 0 then m / ((10 : Rat) ^ e) else m * ((10 : Rat) ^ e))
      | 'E' :: erest =>
        match
          (match erest with
            | '-' :: ds => ((-1 : Int), ds)
            | '+' :: ds => ((1 : Int), ds)
            | ds => ((1 : Int), ds)) with
        | (esign, ds) =>
          if ds.isEmpty ∨ ¬ ds.all Char.isDigit then none
          else (parseDigits ds).map (fun e =>
            if esign < 0 then m / ((10 : Rat) ^ e) else m * ((10 : Rat) ^ e))
      | _ => none

/-- `impl TryFrom<MoonValue> for bool` (src/src/reduced_value_impl/mod.rs,
lines 39-61), translated verbatim including the string branch, which tests
`string.eq("true") || string.eq("no")` first, then
`string.eq("false") || string.eq("no")`, and otherwise falls back to
`i128::from_str(..).map(|n| n > 1)` and then `f64::from_str(..).map(|d| d >= 1.0)`.
The float parser is abstracted as a parameter `f64FromStr` so that settled
theorems state exactly which parses they rely on. `Err(())` is `none`. -/
def tryIntoBool (f64FromStr : String → Option Rat) : MoonValue → Option Bool
  | .Boolean b => some b
  | .Integer int => some (decide (int ≥ 1))
  | .Decimal d => some (decide (d ≥ 1))
  | .String s =>
    if s = "true" ∨ s = "no" then some true
    else if s = "false" ∨ s = "no" then some false
    else
      match i128FromStr s with
      | some n => some (decide (n > 1))
      | none =>
        match f64FromStr s with
        | some d => some (decide (d ≥ 1))
        | none => none
  | _ => none

/-- Truncation toward zero of a rational (behaviour of Rust float-to-int casts
before saturation). -/
def ratTrunc (q : Rat) : Int := if q < 0 then -((-q).floor) else q.floor

/-- Saturate an integer into the `i128` range (Rust float-to-int casts
saturate). -/
def intSat (i : Int) : Int := max INT_MIN (min INT_MAX i)

/-- `f64 as i128`: truncate toward zero and saturate. -/
def ratAsI128 (q : Rat) : Int := intSat (ratTrunc q)

/-- `impl TryFrom<MoonValue> for i128` (macro-generated impl in
src/src/reduced_value_impl/mod.rs lines 107-132): Boolean maps to 0/1,
Integer passes through, Decimal is cast (truncating, saturating), Array
recurses on element 0 and fails when empty, String parses, Null fails. -/
def tryIntoI128 : MoonValue → Option Int
  | .Boolean b => some (if b then 1 else 0)
  | .Integer int => some int
  | .Decimal d => some (ratAsI128 d)
  | .Array (v :: _) => tryIntoI128 v
  | .Array [] => none
  | .String s => i128FromStr s
  | .Null => none

/-- `impl TryFrom<MoonValue> for f64` (same macro): the `i128 as f64` cast is
modelled exactly (rounding ignored); the string branch uses the modelled
float parser. -/
def tryIntoF64 : MoonValue → Option Rat
  | .Boolean b => some (if b then 1 else 0)
  | .Integer int => some (int : Rat)
  | .Decimal d => some d
  | .Array (v :: _) => tryIntoF64 v
  | .Array [] => none
  | .String s => f64FromStrModel s
  | .Null => none

mutual

/-- `impl Display for MoonValue` (src/src/value.rs lines 42-67): `null`,
`true`/`false`, decimal integers, `f64::to_string` (modelled by the exact
rational printer; no settled theorem depends on float formatting), strings
wrapped in quotes, arrays bracketed and comma-separated. -/
def moonDisplay : MoonValue → String
  | .Null => "null"
  | .Boolean b => if b then "true" else "false"
  | .Integer i => toString i
  | .Decimal d => toString d
  | .String s => "\"" ++ s ++ "\""
  | .Array xs => "[" ++ moonDisplayList xs ++ "]"

/-- Comma-separated rendering of array elements. -/
def moonDisplayList : List MoonValue → String
  | [] => ""
  | [v] => moonDisplay v
  | v :: rest => moonDisplay v ++ ", " ++ moonDisplayList rest

end

/-- `i128::checked_add`: `none` exactly when the exact sum leaves the
`i128` range. -/
def checkedAdd (a b : Int) : Option Int :=
  if INT_MIN ≤ a + b ∧ a + b ≤ INT_MAX then some (a + b) else none

/-- `i128::checked_sub`. -/
def checkedSub (a b : Int) : Option Int :=
  if INT_MIN ≤ a - b ∧ a - b ≤ INT_MAX then some (a - b) else none

/-- `i128::checked_mul`. -/
def checkedMul (a b : Int) : Option Int :=
  if INT_MIN ≤ a * b ∧ a * b ≤ INT_MAX then some (a * b) else none

/-- `i128::checked_div`: `none` on a zero divisor or on the single
overflowing case `MIN / -1`; otherwise Rust division truncates toward
zero (`Int.tdiv`). -/
def checkedDiv (a b : Int) : Option Int :=
  if b = 0 ∨ (a = INT_MIN ∧ b = -1) then none else some (Int.tdiv a b)

/-- `i128::checked_rem`: `none` on a zero divisor or on `MIN % -1`;
Rust `%` truncates (`Int.tmod`, sign of the dividend). -/
def checkedRem (a b : Int) : Option Int :=
  if b = 0 ∨ (a = INT_MIN ∧ b = -1) then none else some (Int.tmod a b)

/-- Result-kind levels of `arithmetic_result`
(src/src/reduced_value_impl/impl_operators.rs lines 4-6). -/
def ARITHMETIC_RESULT_BOOL : Nat := 0

/-- Integer result kind. -/
def ARITHMETIC_RESULT_INT : Nat := 1

/-- Decimal result kind. -/
def ARITHMETIC_RESULT_DECIMAL : Nat := 2

/-- Kind level of one operand (the two `match`es inside `arithmetic_result`). -/
def arithmeticLevel : MoonValue → Option Nat
  | .Boolean _ => some ARITHMETIC_RESULT_BOOL
  | .Integer _ => some ARITHMETIC_RESULT_INT
  | .Decimal _ => some ARITHMETIC_RESULT_DECIMAL
  | _ => none

/-- `arithmetic_result` (impl_operators.rs lines 22-36): the larger of the
two operand levels, `none` when either operand is not Boolean/Integer/Decimal. -/
def arithmeticResult (arg1 arg2 : MoonValue) : Option Nat :=
  match arithmeticLevel arg1 with
  | none => none
  | some l =>
    match arithmeticLevel arg2 with
    | none => none
    | some r => some (if r ≥ l then r else l)

/-- `arithmetic_choice` (impl_operators.rs lines 8-20): picks the callback for
the joint result kind; the operand conversions (`TryInto::<..>.unwrap()`)
cannot fail for operands that passed `arithmetic_result`, so the `getD`
defaults are unreachable. The outer `Err` hands the operands back. -/
def arithmeticChoice (arg1 arg2 : MoonValue)
    (onBools : Bool → Bool → Except String MoonValue)
    (onInt : Int → Int → Except String MoonValue)
    (onDecimal : Rat → Rat → Except String MoonValue) :
    Except (MoonValue × MoonValue) (Except String MoonValue) :=
  match arithmeticResult arg1 arg2 with
  | none => .error (arg1, arg2)
  | some level =>
    if level = ARITHMETIC_RESULT_BOOL then
      .ok (onBools ((tryIntoBool f64FromStrModel arg1).getD false)
                   ((tryIntoBool f64FromStrModel arg2).getD false))
    else if level = ARITHMETIC_RESULT_INT then
      .ok (onInt ((tryIntoI128 arg1).getD 0) ((tryIntoI128 arg2).getD 0))
    else if level = ARITHMETIC_RESULT_DECIMAL then
      .ok (onDecimal ((tryIntoF64 arg1).getD 0) ((tryIntoF64 arg2).getD 0))
    else .error (arg1, arg2)

/-- The `"+"` operator (impl_operators.rs lines 62-91): string concatenation
through the Display form when either side is a string, then the arithmetic
choice (Boolean `||`, integer addition saturating at `i128::MAX` through
`checked_add(..).unwrap_or(i128::MAX)`, decimal addition), and finally
array concatenation. -/
def opAdd (arg1 arg2 : MoonValue) : Except String MoonValue :=
  match arg1, arg2 with
  | .String s1, .String s2 => .ok (.String (s1 ++ s2))
  | .String s1, a2 => .ok (.String (s1 ++ moonDisplay a2))
  | a1, .String s2 => .ok (.String (moonDisplay a1 ++ s2))
  | a1, a2 =>
    match arithmeticChoice a1 a2
        (fun b1 b2 => .ok (.Boolean (b1 || b2)))
        (fun i1 i2 => .ok (.Integer ((checkedAdd i1 i2).getD INT_MAX)))
        (fun d1 d2 => .ok (.Decimal (d1 + d2))) with
    | .ok res => res
    | .error (b1, b2) =>
      match b1, b2 with
      | .Array xs1, .Array xs2 => .ok (.Array (xs1 ++ xs2))
      | _, _ =>
        .error "Operator '+' can only be applied between booleans, integers, decimals, arrays or strings"

/-- The `"-"` operator (lines 92-98): Boolean and-not, integer subtraction
saturating at `i128::MIN` through `checked_sub(..).unwrap_or(i128::MIN)`,
decimal subtraction. -/
def opSub (arg1 arg2 : MoonValue) : Except String MoonValue :=
  match arithmeticChoice arg1 arg2
      (fun b1 b2 => .ok (.Boolean (b1 && !b2)))
      (fun i1 i2 => .ok (.Integer ((checkedSub i1 i2).getD INT_MIN)))
      (fun d1 d2 => .ok (.Decimal (d1 - d2))) with
  | .ok res => res
  | .error _ => .error "Operator '-' can only be applied between booleans, integers or decimals"

/-- The `"*"` operator (lines 99-105): Boolean `&&`, integer multiplication
saturating at `i128::MAX` through `checked_mul(..).unwrap_or(i128::MAX)`,
decimal multiplication. -/
def opMul (arg1 arg2 : MoonValue) : Except String MoonValue :=
  match arithmeticChoice arg1 arg2
      (fun b1 b2 => .ok (.Boolean (b1 && b2)))
      (fun i1 i2 => .ok (.Integer ((checkedMul i1 i2).getD INT_MAX)))
      (fun d1 d2 => .ok (.Decimal (d1 * d2))) with
  | .ok res => res
  | .error _ => .error "Operator '*' can only be applied between booleans, integers or decimals"

/-- Integer branch of `"/"` (lines 109-118). The source computes
`res = (i1 as f64) / (i2 as f64)` and branches on `res.is_normal()` and on
`res == (res as i128 as f64)`. For integer operands the float quotient is
non-normal exactly when `i2 = 0` (giving infinity or NaN) or `i1 = 0`
(giving zero; a subnormal is impossible because the smallest nonzero
magnitude of a quotient of two `i128`s far exceeds the least normal `f64`).
The roundtrip equality is modelled as exact divisibility and the cast
`res as i128` as the exact quotient; both are exact below `2^53` and no
settled theorem depends on them - the settled division claim only exercises
the non-normal branch. -/
def intDivBranch (i1 i2 : Int) : Except String MoonValue :=
  if ¬(i2 ≠ 0 ∧ i1 ≠ 0) then .ok (.Integer ((checkedDiv i1 i2).getD INT_MAX))
  else if i1 % i2 = 0 then .ok (.Integer (Int.tdiv i1 i2))
  else .ok (.Decimal ((i1 : Rat) / (i2 : Rat)))

/-- The `"/"` operator (lines 106-121): fails on Booleans, integer branch as
above, decimal division. -/
def opDiv (arg1 arg2 : MoonValue) : Except String MoonValue :=
  match arithmeticChoice arg1 arg2
      (fun _ _ => .error "Operator '/' cannot be applied between booleans")
      (fun i1 i2 => intDivBranch i1 i2)
      (fun d1 d2 => .ok (.Decimal (d1 / d2))) with
  | .ok res => res
  | .error _ => .error "Operator '/' can only be applied between integers or decimals"

/-- `f64 %` (remainder with the sign of the dividend); exact for rational
operands, with the `d2 = 0` case (NaN in Rust) modelled as `0` - it is never
exercised by a settled theorem. -/
def ratMod (d1 d2 : Rat) : Rat :=
  if d2 = 0 then 0 else d1 - d2 * (ratTrunc (d1 / d2) : Rat)

/-- The `"%"` operator (lines 122-128): fails on Booleans,
`checked_rem(..).unwrap_or(0)` on integers, float remainder on decimals. -/
def opRem (arg1 arg2 : MoonValue) : Except String MoonValue :=
  match arithmeticChoice arg1 arg2
      (fun _ _ => .error "Operator '%' cannot be applied between booleans")
      (fun i1 i2 => .ok (.Integer ((checkedRem i1 i2).getD 0)))
      (fun d1 d2 => .ok (.Decimal (ratMod d1 d2))) with
  | .ok res => res
  | .error _ => .error "Operator '%' can only be applied between integers or decimals"

/-- The `"&&"` operator (lines 129-141): logical and on two Booleans,
bitwise `&` after `i128` conversion when both operands are numeric
(decimals truncate), an error otherwise. There is no short-circuiting. -/
def opAnd (arg1 arg2 : MoonValue) : Except String MoonValue :=
  match arg1, arg2 with
  | .Boolean b1, .Boolean b2 => .ok (.Boolean (b1 && b2))
  | .Integer _, .Integer _ | .Integer _, .Decimal _ | .Decimal _, .Integer _
  | .Decimal _, .Decimal _ =>
    .ok (.Integer (Int.land ((tryIntoI128 arg1).getD 0) ((tryIntoI128 arg2).getD 0)))
  | _, _ => .error "Operator '&&' can only be applied between boolean, integers or decimals"

/-- The `"^"` operator (lines 142-154): Boolean xor, bitwise xor on numerics. -/
def opXor (arg1 arg2 : MoonValue) : Except String MoonValue :=
  match arg1, arg2 with
  | .Boolean b1, .Boolean b2 => .ok (.Boolean (xor b1 b2))
  | .Integer _, .Integer _ | .Integer _, .Decimal _ | .Decimal _, .Integer _
  | .Decimal _, .Decimal _ =>
    .ok (.Integer (Int.xor ((tryIntoI128 arg1).getD 0) ((tryIntoI128 arg2).getD 0)))
  | _, _ => .error "Operator '^' can only be applied between boolean, integers or decimals"

/-- Reinterpret an integer inside the 128-bit two's-complement range
(wrapping semantics of a Rust release-mode shift result). -/
def i128Wrap (i : Int) : Int :=
  let m := i % (2 : Int) ^ 128
  if m ≥ (2 : Int) ^ 127 then m - (2 : Int) ^ 128 else m

/-- The `"<<"` operator (lines 155-164): both operands converted to `i128`,
then shifted. The Rust shift amount is modelled with the release-mode
masking to `0..128` (a debug build panics instead on an out-of-range
amount); no settled theorem exercises shifts. -/
def opShl (arg1 arg2 : MoonValue) : Except String MoonValue :=
  match arg1, arg2 with
  | .Integer _, .Integer _ | .Integer _, .Decimal _ | .Decimal _, .Integer _
  | .Decimal _, .Decimal _ =>
    .ok (.Integer (i128Wrap (((tryIntoI128 arg1).getD 0) *
      (2 : Int) ^ (((tryIntoI128 arg2).getD 0) % 128).toNat)))
  | _, _ => .error "Operator '<<' can only be applied between integers or decimals"

/-- The `">>"` operator (lines 165-174): arithmetic right shift, same
conversion and amount handling as `"<<"`. -/
def opShr (arg1 arg2 : MoonValue) : Except String MoonValue :=
  match arg1, arg2 with
  | .Integer _, .Integer _ | .Integer _, .Decimal _ | .Decimal _, .Integer _
  | .Decimal _, .Decimal _ =>
    .ok (.Integer (Int.shiftRight ((tryIntoI128 arg1).getD 0)
      (((tryIntoI128 arg2).getD 0) % 128).toNat))
  | _, _ => .error "Operator '>>' can only be applied between integers or decimals"

/-- The `"=="` operator (lines 175-177): `arg_1.eq(&arg_2)`, the derived
structural `PartialEq` (`MoonValue.beq`). -/
def opEq (arg1 arg2 : MoonValue) : Except String MoonValue :=
  .ok (.Boolean (MoonValue.beq arg1 arg2))

/-- The `"!="` operator (lines 178-180): `arg_1.ne(&arg_2)`. -/
def opNeq (arg1 arg2 : MoonValue) : Except String MoonValue :=
  .ok (.Boolean (!MoonValue.beq arg1 arg2))

/-- Rust `bool` ordering: `false < true`. -/
def boolAsNat (b : Bool) : Nat := if b then 1 else 0

/-- The `">"` operator (lines 181-187). -/
def opGt (arg1 arg2 : MoonValue) : Except String MoonValue :=
  match arithmeticChoice arg1 arg2
      (fun b1 b2 => .ok (.Boolean (decide (boolAsNat b1 > boolAsNat b2))))
      (fun i1 i2 => .ok (.Boolean (decide (i1 > i2))))
      (fun d1 d2 => .ok (.Boolean (decide (d1 > d2)))) with
  | .ok res => res
  | .error _ => .error "Operator '>' can only be applied between boolean, integers or decimals"

/-- The `"<"` operator (lines 188-194). -/
def opLt (arg1 arg2 : MoonValue) : Except String MoonValue :=
  match arithmeticChoice arg1 arg2
      (fun b1 b2 => .ok (.Boolean (decide (boolAsNat b1 < boolAsNat b2))))
      (fun i1 i2 => .ok (.Boolean (decide (i1 < i2))))
      (fun d1 d2 => .ok (.Boolean (decide (d1 < d2)))) with
  | .ok res => res
  | .error _ => .error "Operator '<' can only be applied between boolean, integers or decimals"

/-- The `">="` operator (lines 195-201). -/
def opGte (arg1 arg2 : MoonValue) : Except String MoonValue :=
  match arithmeticChoice arg1 arg2
      (fun b1 b2 => .ok (.Boolean (decide (boolAsNat b1 ≥ boolAsNat b2))))
      (fun i1 i2 => .ok (.Boolean (decide (i1 ≥ i2))))
      (fun d1 d2 => .ok (.Boolean (decide (d1 ≥ d2)))) with
  | .ok res => res
  | .error _ => .error "Operator '>?' can only be applied between boolean, integers or decimals"

/-- The `"<="` operator (lines 202-208). -/
def opLte (arg1 arg2 : MoonValue) : Except String MoonValue :=
  match arithmeticChoice arg1 arg2
      (fun b1 b2 => .ok (.Boolean (decide (boolAsNat b1 ≤ boolAsNat b2))))
      (fun i1 i2 => .ok (.Boolean (decide (i1 ≤ i2))))
      (fun d1 d2 => .ok (.Boolean (decide (d1 ≤ d2)))) with
  | .ok res => res
  | .error _ => .error "Operator '<=' can only be applied between boolean, integers or decimals"

/-- `get_binary_operators` (impl_operators.rs lines 60-210), in source
order. The list has fifteen entries; `"||"` does not appear in the source. -/
def getBinaryOperators : List (String × (MoonValue → MoonValue → Except String MoonValue)) :=
  [("+", opAdd), ("-", opSub), ("*", opMul), ("/", opDiv), ("%", opRem),
   ("&&", opAnd), ("^", opXor), ("<<", opShl), (">>", opShr),
   ("==", opEq), ("!=", opNeq), (">", opGt), ("<", opLt), (">=", opGte), ("<=", opLte)]

/-- Runtime error taxonomy. The live `RuntimeError` enum definition sits in
the live execution module (its file is not part of src/, src/src/execution/mod.rs
being an older revision); the variants and their fields are taken from their
construction sites in src/src/execution/ast.rs, src/src/execution/optimized_ast.rs
and src/src/function/mod.rs. -/
inductive RuntimeError where
  | CannotTurnPredicateToBool (type_of_statement : String) (function_error_message : String)
  | FunctionError (function_error_message : String)
  | AnArgumentIsMissing
  | CannotParseArgument
deriving DecidableEq

/-- A host callable (`VBFunction` / `MoonFunction`): the Rust closure receives
an iterator of lazily resolved per-argument results and yields one value or a
runtime error. It is modelled as a pure function on the list of argument
outcomes; the executors resolve arguments eagerly left-to-right, which agrees
with the lazy iterator for pure callables because the only state written
during argument resolution is variable-cell memoization. -/
def MoonFn : Type := List (Except RuntimeError MoonValue) → Except RuntimeError MoonValue

/-- AST values (src/src/value.rs, `FullValue`). The `Function` constructor
inlines the `ASTFunction { function, args }` pair. -/
inductive FullValue where
  | Null : FullValue
  | Boolean (b : Bool) : FullValue
  | Integer (i : Int) : FullValue
  | Decimal (d : Rat) : FullValue
  | String (s : String) : FullValue
  | Array (xs : List FullValue) : FullValue
  | Function (fn : MoonFn) (args : List FullValue) : FullValue
  | Variable (block_level : Nat) (var_index : Nat) : FullValue
  | DirectVariable (var_index : Nat) : FullValue

mutual

/-- `impl From<MoonValue> for FullValue`
(src/src/reduced_value_impl/mod.rs lines 10-25). -/
def FullValue.fromMoon : MoonValue → FullValue
  | .Null => .Null
  | .Boolean b => .Boolean b
  | .Decimal d => .Decimal d
  | .Integer i => .Integer i
  | .String s => .String s
  | .Array xs => .Array (FullValue.fromMoonList xs)

/-- Elementwise `From<MoonValue>` on arrays. -/
def FullValue.fromMoonList : List MoonValue → List FullValue
  | [] => []
  | v :: rest => FullValue.fromMoon v :: FullValue.fromMoonList rest

end

mutual

/-- `FullValue::is_simple_value` (src/src/value.rs lines 137-144): scalars are
simple, arrays are simple when every element is, functions and variable
references are not. -/
def FullValue.is_simple_value : FullValue → Bool
  | .Null | .Boolean _ | .Decimal _ | .Integer _ | .String _ => true
  | .Array xs => FullValue.listSimple xs
  | _ => false

/-- All elements simple. -/
def FullValue.listSimple : List FullValue → Bool
  | [] => true
  | v :: rest => FullValue.is_simple_value v && FullValue.listSimple rest

end

mutual

/-- `FullValue::resolve_value_no_context` (src/src/value.rs lines 146-158).
The source panics on functions and variable references; the callers guard
every use with `is_simple_value`, and the panic is modelled as `Null`. -/
def FullValue.resolve_value_no_context : FullValue → MoonValue
  | .Null => .Null
  | .Boolean b => .Boolean b
  | .Decimal d => .Decimal d
  | .Integer i => .Integer i
  | .String s => .String s
  | .Array xs => .Array (FullValue.resolveListNoContext xs)
  | _ => .Null

/-- Elementwise `resolve_value_no_context`. -/
def FullValue.resolveListNoContext : List FullValue → List MoonValue
  | [] => []
  | v :: rest => FullValue.resolve_value_no_context v :: FullValue.resolveListNoContext rest

end

/-- Statements (src/src/execution/ast.rs lines 41-49). `IfElseBlock` carries
the `ConditionalStatements { condition, statements }` records as pairs. -/
inductive Statement where
  | WhileBlock (condition : FullValue) (statements : List Statement) : Statement
  | IfElseBlock (conditional_statements : List (FullValue × List Statement)) : Statement
  | UnoptimizedAssignament (block_level : Nat) (var_index : Nat) (value : FullValue) : Statement
  | OptimizedAssignament (var_index : Nat) (value : FullValue) : Statement
  | FnCall (fn : MoonFn) (args : List FullValue) : Statement
  | ReturnCall (value : FullValue) : Statement

/-- Compiled script (src/src/execution/ast.rs lines 12-17). `RuntimeVariable`
is a single-field wrapper around a `FullValue`, so the runtime frame is a
plain value list; the `parameterized_variables` hash map is an association
list. The Rust field `variables` is spelled `vars` because `variables` is a
reserved command name in Lean. -/
structure AST where
  statements : List Statement
  vars : List FullValue
  parameterized_variables : List (String × Nat)

/-- Function metadata (src/src/parsing/mod.rs lines 33-38,
`FunctionInfo { can_inline_result, function, return_type_name }`). -/
structure FunctionInfo where
  can_inline_result : Bool
  function : MoonFn
  return_type_name : Option String

/-- `FunctionInfo::inline` (src/src/parsing/mod.rs lines 50-53). -/
def FunctionInfo.inline (fi : FunctionInfo) : FunctionInfo :=
  { fi with can_inline_result := true }

/-- The `ToAbstractFunction` wrapper produced for a two-argument
`Fn(V, V) -> Result<V, String>` host function (the macro in
src/src/function/mod.rs lines 47-116, `Result` variant): each argument is
pulled from the iterator (`AnArgumentIsMissing` when absent, the argument's
own error re-raised by `??`), converted (the conversion is the identity for
value-typed parameters and cannot fail), and a host error string becomes
`RuntimeError::FunctionError`. -/
def binOpToMoonFn (f : MoonValue → MoonValue → Except String MoonValue) : MoonFn :=
  fun results =>
    match results.get? 0 with
    | none => .error .AnArgumentIsMissing
    | some (.error e) => .error e
    | some (.ok v1) =>
      match results.get? 1 with
      | none => .error .AnArgumentIsMissing
      | some (.error e) => .error e
      | some (.ok v2) =>
        match f v1 v2 with
        | .ok v => .ok v
        | .error msg => .error (.FunctionError msg)

/-- `FunctionInfo::new` applied to a binary operator
(src/src/parsing/mod.rs lines 40-48): wraps the callable, no declared return
type, not inlineable until `.inline()`. -/
def FunctionInfo.newBinary (f : MoonValue → MoonValue → Except String MoonValue) : FunctionInfo :=
  { can_inline_result := false, function := binOpToMoonFn f, return_type_name := none }

/-- The wrapper for the one-`String`-argument `print`/`println` built-ins
added by `Engine::default` (src/src/engine/mod.rs lines 110-116): the
`TryFrom<MoonValue> for String` conversion accepts only strings
(`CannotParseArgument` otherwise), the printing side effect is not modelled,
and the unit return converts to `Null`. -/
def printMoonFn : MoonFn :=
  fun results =>
    match results.get? 0 with
    | none => .error .AnArgumentIsMissing
    | some (.error e) => .error e
    | some (.ok v) =>
      match v with
      | .String _ => .ok .Null
      | _ => .error .CannotParseArgument

/-- `Constant { value, type_name }` (src/src/engine/mod.rs lines 41-45). -/
structure Constant where
  value : MoonValue
  type_name : Option String

/-- The engine registry (src/src/engine/mod.rs lines 21-38). Every `HashMap`
is an association list; list order models the sorted iteration order of the
`BTreeMap` that the `no_std` build substitutes for `std::collections::HashMap`,
and lookups compare keys. -/
structure Engine where
  associated_functions : List (String × List (String × List (String × FunctionInfo)))
  functions : List (String × List (String × FunctionInfo))
  built_in_associated_functions : List (String × List (String × FunctionInfo))
  built_in_functions : List (String × FunctionInfo)
  binary_operators : List (String × FunctionInfo)
  unary_operators : List (String × FunctionInfo)
  constants : List (String × Constant)

/-- `Engine::default` (src/src/engine/mod.rs lines 88-119): empty function
tables, the binary operator table built from `get_binary_operators` with
every entry marked inlineable, and the `print`/`println` built-ins (the
unary operator table is not needed by any settled claim and is left empty
here; no settled theorem reads it). -/
def engineDefault : Engine :=
  { associated_functions := []
    functions := []
    built_in_associated_functions := []
    built_in_functions := [("print", { can_inline_result := false, function := printMoonFn, return_type_name := none }),
                           ("println", { can_inline_result := false, function := printMoonFn, return_type_name := none })]
    binary_operators := getBinaryOperators.map
      (fun p => (p.1, (FunctionInfo.newBinary p.2).inline))
    unary_operators := []
    constants := [] }

/-- `Engine::find_binary_operator` (src/src/engine/mod.rs lines 220-222). -/
def Engine.find_binary_operator (e : Engine) (operator_name : String) : Option FunctionInfo :=
  e.binary_operators.lookup operator_name

/-- `Engine::find_function` (src/src/engine/mod.rs lines 224-256). The
no-qualifier and type-only fallbacks translate
`.iter().map(|(_, m)| m.get(name)).next().flatten()` literally: only the
first module in iteration order is consulted. -/
def Engine.find_function (e : Engine) (type_name : Option String) (module_name : Option String)
    (function_name : String) : Option FunctionInfo :=
  match type_name with
  | some t =>
    match module_name with
    | some m =>
      ((e.associated_functions.lookup t).bind (fun assoc_map => assoc_map.lookup m)).bind
        (fun module_map => module_map.lookup function_name)
    | none =>
      match (e.built_in_associated_functions.lookup t).bind
          (fun assoc_map => assoc_map.lookup function_name) with
      | some f => some f
      | none =>
        (e.associated_functions.lookup t).bind (fun assoc_map =>
          assoc_map.head?.bind (fun module_map => module_map.2.lookup function_name))
  | none =>
    match module_name with
    | some m =>
      (e.functions.lookup m).bind (fun module_map => module_map.lookup function_name)
    | none =>
      match e.built_in_functions.lookup function_name with
      | some f => some f
      | none =>
        e.functions.head?.bind (fun module_map => module_map.2.lookup function_name)

/-- Compile-time variable record (src/src/engine/context.rs lines 190-198,
`InputVariable`). -/
structure InputVariable where
  name : String
  first_value : FullValue
  associated_type_name : Option String
  current_known_value : Option FullValue
  type_is_valid_up_to_depth : Nat
  value_is_valid_up_to_depth : Nat
  can_inline : Bool

/-- `InputVariable::inlineable_value` (context.rs lines 202-207): the tracked
value, only while the variable may be inlined. -/
def InputVariable.inlineable_value (v : InputVariable) : Option FullValue :=
  match v.can_inline with
  | true => v.current_known_value
  | false => none

/-- `InputVariable::new` (context.rs lines 215-230). The name is run through
the grammar's `ident` rule (`SimpleParser::parse(Rule::ident, name)`); the
grammar file is not part of src/, so that rule is abstracted as a prefix
parser returning the length of the longest identifier prefix it consumes
(`none` for a parse error). When parsing fails or consumes a strict prefix,
the name is silently replaced by the fixed string `"Wrong variable name"`;
no error is reported. -/
def InputVariable.new (identParsedLen : String → Option Nat) (name : String) : InputVariable :=
  let finalName :=
    match identParsedLen name with
    | none => "Wrong variable name"
    | some len => if len < name.length then "Wrong variable name" else name
  { name := finalName
    first_value := .Null
    associated_type_name := none
    current_known_value := none
    value_is_valid_up_to_depth := 0
    type_is_valid_up_to_depth := 0
    can_inline := true }

/-- Compile context (src/src/engine/context.rs lines 17-24,
`ContextBuilder`). -/
structure ContextBuilder where
  in_use_variables : List (Nat × List InputVariable)
  past_variables : List (Nat × List InputVariable)
  next_block_level : Nat
  started_parsing : Bool
  start_parsing_position_offset : Nat × Nat
  parsing_position_column_is_fixed : Bool

/-- `ContextBuilder::default` (context.rs lines 32-45): empty context with
one block level pushed. -/
def ContextBuilder.default : ContextBuilder :=
  { in_use_variables := [(0, [])]
    past_variables := []
    next_block_level := 1
    started_parsing := false
    start_parsing_position_offset := (0, 0)
    parsing_position_column_is_fixed := false }

/-- `ContextBuilder::find_variable` (context.rs lines 86-95): blocks are
scanned deepest-first, and inside a block the entries are scanned last-first;
the first block containing a matching name decides. Indices are paired as
`(block_level, var_index, variable)`. -/
def ContextBuilder.find_variable (ctx : ContextBuilder) (variable_name : String) :
    Option (Nat × Nat × InputVariable) :=
  (ctx.in_use_variables.reverse.filterMap (fun block =>
    ((block.2.enum.reverse.find? (fun entry => entry.2.name == variable_name)).map
      (fun entry => (block.1, entry.1, entry.2))))).head?

/-- The grammar's infix operator rules appearing in the Pratt table
(src/src/block_parsing/mod.rs lines 91-99 and src/src/main.rs lines 169-177,
the two copies of the `PrattParser` construction present in src/; the live
`Engine::binary_operation_parser` body called from
src/src/parsing/value_parsing/mod.rs line 193 is not in src/ and these copies
are identical). -/
inductive BinRule where
  | sum | sub | mul | div | rem
  | eq | neq | gt | gte | lt | lte
  | or | xor | and
deriving DecidableEq

/-- The operator's source text (`op.as_str()`), as passed to
`find_binary_operator`. -/
def BinRule.symbol : BinRule → String
  | .sum => "+"
  | .sub => "-"
  | .mul => "*"
  | .div => "/"
  | .rem => "%"
  | .eq => "=="
  | .neq => "!="
  | .gt => ">"
  | .gte => ">="
  | .lt => "<"
  | .lte => "<="
  | .or => "||"
  | .xor => "^"
  | .and => "&&"

/-- Precedence levels of the Pratt table. pest's `PrattParser` assigns the
level of an infix rule by the position of the `.op` call that registers it,
the first call being the lowest level and each following call one level
higher (the pest book states the convention as "precedence is defined lowest
to highest"); re-registering a rule overwrites its entry, so `rem`, listed in
the third call and again in the fifth, lands at level 5. All rules are
registered `Assoc::Left`. -/
def BinRule.prec : BinRule → Nat
  | .sum | .sub => 1
  | .mul | .div => 2
  | .rem => 5
  | .eq | .neq | .gt | .gte | .lt | .lte => 4
  | .or | .xor | .and => 5

/-- Parse-tree tokens of the value grammar, covering the node kinds the
settled claims exercise (`build_value_token`'s other arms - unary operations,
function calls, property chains - build no part of a settled theorem).
`string` carries the quoted source text, as `token.as_str()` does. A
`BINARY_OPERATION` node holds the flat alternating primary/operator sequence
that pest's Pratt parser consumes. -/
inductive Token where
  | ident (name : String) : Token
  | boolean (text : String) : Token
  | integer (text : String) : Token
  | decimal (text : String) : Token
  | string (text : String) : Token
  | null : Token
  | array (elems : List Token) : Token
  | binary_operation (head : Token) (tail : List (BinRule × Token)) : Token

/-- Compile-time diagnostics (src/src/parsing/error.rs, `ASTBuildingError`),
restricted to the variants reachable through the embedded builder arms. -/
inductive ASTBuildingError where
  | OperatorNotFound (operator : String)
  | CouldntInlineFunction (function_name : String) (runtime_error : RuntimeError)
  | VariableNotInScope (variable_name : String)
  | CannotParseInteger (value : String)
  | CannotParseDecimal (value : String)
deriving DecidableEq

/-- Error list of a build result (`lhs.err().unwrap_or_default()`). -/
def errListOf (r : Except (List ASTBuildingError) FullValue) : List ASTBuildingError :=
  match r with
  | .ok _ => []
  | .error es => es

/-- The `map_infix` closure of the `BINARY_OPERATION` arm
(src/src/parsing/value_parsing/mod.rs lines 197-221): unite the side errors
(appending `OperatorNotFound` when the operator is missing from the table);
otherwise fold - when the operator is inlineable and both sides are simple,
execute it on the resolved operands (`CouldntInlineFunction` on failure),
else emit a function-call node over both sides. -/
def prattFold (base : Engine) (lhs : Except (List ASTBuildingError) FullValue) (op : BinRule)
    (rhs : Except (List ASTBuildingError) FullValue) : Except (List ASTBuildingError) FullValue :=
  match base.find_binary_operator op.symbol with
  | none => .error (errListOf lhs ++ errListOf rhs ++ [.OperatorNotFound op.symbol])
  | some fn =>
    match lhs, rhs with
    | .ok l, .ok r =>
      if fn.can_inline_result && l.is_simple_value && r.is_simple_value then
        match fn.function [.ok l.resolve_value_no_context, .ok r.resolve_value_no_context] with
        | .ok v => .ok (FullValue.fromMoon v)
        | .error e => .error [.CouldntInlineFunction op.symbol e]
      else .ok (.Function fn.function [l, r])
    | _, _ => .error (errListOf lhs ++ errListOf rhs)

/-- Models `pest::pratt_parser::PrattParser::parse` over the already-built
primary results: standard precedence climbing with the level table above,
every operator left-associative (the right operand is climbed at one level
above the operator's own), reducing through `prattFold`. The fuel only
bounds the climb; any fuel at least the length of the operator list is
enough. Returns the folded result and the unconsumed suffix. -/
def prattClimb (base : Engine) (fuel : Nat) (minPrec : Nat)
    (lhs : Except (List ASTBuildingError) FullValue)
    (rest : List (BinRule × Except (List ASTBuildingError) FullValue)) :
    Except (List ASTBuildingError) FullValue ×
      List (BinRule × Except (List ASTBuildingError) FullValue) :=
  match fuel with
  | 0 => (lhs, rest)
  | fuel + 1 =>
    match rest with
    | [] => (lhs, [])
    | (op, rhsPrim) :: rest2 =>
      if op.prec < minPrec then (lhs, rest)
      else
        let climbed := prattClimb base fuel (op.prec + 1) rhsPrim rest2
        prattClimb base fuel minPrec (prattFold base lhs op climbed.1) climbed.2

/-- `base.constants().get(ident)` (src/src/engine/mod.rs lines 257-259). -/
def ctx_constant (base : Engine) (name : String) : Option Constant :=
  base.constants.lookup name

/-- Error list when failed, `none`-marker otherwise (helper for the array
arm's `on_errors` accumulation). -/
def errListOf' (r : Except (List ASTBuildingError) FullValue) : Option (List ASTBuildingError) :=
  match r with
  | .ok _ => none
  | .error es => some es

/-- Successful value of a build result. -/
def okOf (r : Except (List ASTBuildingError) FullValue) : Option FullValue :=
  match r with
  | .ok v => some v
  | .error _ => none

mutual

/-- `build_value_token` (src/src/parsing/value_parsing/mod.rs lines 185-324),
restricted to the embedded arms: binary operations (primaries built in
source order, then reduced by the Pratt parser), arrays (errors accumulate),
identifiers (an in-scope variable whose inlineable tracked value is simple is
substituted by that value, otherwise a scoped variable reference is emitted;
then constants; then `VariableNotInScope`), and the literals. The constant
arm's `FullValue::from(Constant)` impl is not in src/ and is modelled from
the spec sentence "Constants are inlined wherever their name is referenced"
as the constant's value. The fuel dominates the token depth; no settled
theorem needs more than the token's own height plus one. -/
def buildValueToken (fuel : Nat) (base : Engine) (ctx : ContextBuilder) :
    Token → Except (List ASTBuildingError) FullValue
  | .binary_operation head tail =>
    match fuel with
    | 0 => .error []
    | fuel + 1 =>
      let lhs := buildValueToken fuel base ctx head
      let rest := buildPrimaryList fuel base ctx tail
      (prattClimb base (rest.length + 1) 0 lhs rest).1
  | .array elems =>
    match fuel with
    | 0 => .error []
    | fuel + 1 =>
      let built := buildTokenList fuel base ctx elems
      if (built.filterMap errListOf').isEmpty then
        .ok (.Array (built.filterMap okOf))
      else .error (built.flatMap errListOf)
  | .ident name =>
    match ctx.find_variable name with
    | some found =>
      if (found.2.2.inlineable_value.map FullValue.is_simple_value).getD false then
        .ok (found.2.2.inlineable_value.getD .Null)
      else .ok (.Variable found.1 found.2.1)
    | none =>
      match ctx_constant base name with
      | some c => .ok (FullValue.fromMoon c.value)
      | none => .error [.VariableNotInScope name]
  | .null => .ok .Null
  | .boolean text => .ok (.Boolean (text == "true" || text == "yes"))
  | .decimal text =>
    match f64FromStrModel text with
    | some d => .ok (.Decimal d)
    | none => .error [.CannotParseDecimal text]
  | .integer text =>
    match i128FromStr text with
    | some i => .ok (.Integer i)
    | none => .error [.CannotParseInteger text]
  | .string text => .ok (.String (((text.toList.drop 1).dropLast).asString))

/-- Builds the operator/primary tail of a binary operation in source order. -/
def buildPrimaryList (fuel : Nat) (base : Engine) (ctx : ContextBuilder) :
    List (BinRule × Token) → List (BinRule × Except (List ASTBuildingError) FullValue)
  | [] => []
  | (op, t) :: rest => (op, buildValueToken fuel base ctx t) :: buildPrimaryList fuel base ctx rest

/-- Builds the elements of an `ARRAY` node in source order. -/
def buildTokenList (fuel : Nat) (base : Engine) (ctx : ContextBuilder) :
    List Token → List (Except (List ASTBuildingError) FullValue)
  | [] => []
  | t :: rest => buildValueToken fuel base ctx t :: buildTokenList fuel base ctx rest

end

/-- The `WHILE_BLOCK` arm of `build_token`
(src/src/parsing/statement_parsing/mod.rs lines 68-77): the predicate is
built by the ordinary `build_value_token` - no inlining suppression of any
kind is applied to it - and a fresh block level is pushed only around the
body. The body statements are taken as already built, since only the
condition handling decides the settled claims. -/
def buildWhileStatementCond (fuel : Nat) (base : Engine) (ctx : ContextBuilder)
    (predicate : Token) (bodyStatements : List Statement) :
    Except (List ASTBuildingError) Statement :=
  match buildValueToken fuel base ctx predicate with
  | .error es => .error es
  | .ok cond => .ok (.WhileBlock cond bodyStatements)

/-- Insert a `(block_level, var_index)` pair unless already collected
(the `if !used_variables.contains_key(..) { insert }` steps of the first
walk in `optimize_variables`, src/src/parsing/mod.rs lines 309-341). -/
def insertUsed (acc : List (Nat × Nat)) (p : Nat × Nat) : List (Nat × Nat) :=
  if acc.contains p then acc else acc ++ [p]

mutual

/-- First walk of `optimize_variables` over one value
(`walk_statement`/`walk_value` with the collecting action): records every
scoped `Variable` reference. -/
def collectValue (acc : List (Nat × Nat)) : FullValue → List (Nat × Nat)
  | .Variable bl vi => insertUsed acc (bl, vi)
  | .Array xs => collectValues acc xs
  | .Function _ args => collectValues acc args
  | _ => acc

/-- Collection over a value list, left to right. -/
def collectValues (acc : List (Nat × Nat)) : List FullValue → List (Nat × Nat)
  | [] => acc
  | v :: rest => collectValues (collectValue acc v) rest

end

mutual

/-- First walk of `optimize_variables` over one statement: records the pair
of every `UnoptimizedAssignament` and every scoped variable reference inside
its values, in walk order. -/
def collectStatement (acc : List (Nat × Nat)) : Statement → List (Nat × Nat)
  | .WhileBlock condition statements => collectStatements (collectValue acc condition) statements
  | .IfElseBlock conditional_statements => collectConditionals acc conditional_statements
  | .UnoptimizedAssignament bl vi value => collectValue (insertUsed acc (bl, vi)) value
  | .OptimizedAssignament _ value => collectValue acc value
  | .FnCall _ args => collectValues acc args
  | .ReturnCall value => collectValue acc value

/-- Collection over a statement list. -/
def collectStatements (acc : List (Nat × Nat)) : List Statement → List (Nat × Nat)
  | [] => acc
  | s :: rest => collectStatements (collectStatement acc s) rest

/-- Collection over the `(condition, statements)` records of an
`IfElseBlock`. -/
def collectConditionals (acc : List (Nat × Nat)) :
    List (FullValue × List Statement) → List (Nat × Nat)
  | [] => acc
  | c :: rest => collectConditionals (collectStatements (collectValue acc c.1) c.2) rest

end

/-- Lexicographic order on `(block_level, var_index)`
(the `sort_by` of src/src/parsing/mod.rs lines 344-346). -/
def pairLe (a b : Nat × Nat) : Bool :=
  a.1 < b.1 || (a.1 == b.1 && a.2 ≤ b.2)

/-- Dense index assignment (src/src/parsing/mod.rs lines 342-351): the
surviving pairs are sorted lexicographically and enumerated; a pair's dense
index is its position. The second walk's `get(..).unwrap()` lookups cannot
miss because the first walk collected exactly the pairs the walks visit. -/
def denseIdx (used : List (Nat × Nat)) (bl vi : Nat) : Nat :=
  (used.mergeSort pairLe).indexOf (bl, vi)

mutual

/-- Second walk of `optimize_variables` over one value
(src/src/parsing/mod.rs lines 374-383): every scoped `Variable` reference is
replaced in place by `DirectVariable` at its dense index; the walk then
recurses into the children of the (possibly replaced) node, so arrays and
function arguments are rewritten elementwise and a fresh `DirectVariable`
has no children to visit. -/
def substValue (f : Nat → Nat → Nat) : FullValue → FullValue
  | .Null => .Null
  | .Boolean b => .Boolean b
  | .Integer i => .Integer i
  | .Decimal d => .Decimal d
  | .String s => .String s
  | .Array xs => .Array (substValues f xs)
  | .Function fn args => .Function fn (substValues f args)
  | .Variable bl vi => .DirectVariable (f bl vi)
  | .DirectVariable vi => .DirectVariable vi

/-- Rewrite of a value list. -/
def substValues (f : Nat → Nat → Nat) : List FullValue → List FullValue
  | [] => []
  | v :: rest => substValue f v :: substValues f rest

end

mutual

/-- Second walk of `optimize_variables` over one statement
(src/src/parsing/mod.rs lines 361-386): every `UnoptimizedAssignament` is
replaced in place by `OptimizedAssignament` at the dense index (the walk then
visits the new statement's value), and every value is rewritten as above. -/
def substStatement (f : Nat → Nat → Nat) : Statement → Statement
  | .WhileBlock condition statements =>
    .WhileBlock (substValue f condition) (substStatements f statements)
  | .IfElseBlock conditional_statements =>
    .IfElseBlock (substConditionals f conditional_statements)
  | .UnoptimizedAssignament bl vi value => .OptimizedAssignament (f bl vi) (substValue f value)
  | .OptimizedAssignament vi value => .OptimizedAssignament vi (substValue f value)
  | .FnCall fn args => .FnCall fn (substValues f args)
  | .ReturnCall value => .ReturnCall (substValue f value)

/-- Rewrite of a statement list. -/
def substStatements (f : Nat → Nat → Nat) : List Statement → List Statement
  | [] => []
  | s :: rest => substStatement f s :: substStatements f rest

/-- Rewrite of the `(condition, statements)` records of an `IfElseBlock`. -/
def substConditionals (f : Nat → Nat → Nat) :
    List (FullValue × List Statement) → List (FullValue × List Statement)
  | [] => []
  | c :: rest => (substValue f c.1, substStatements f c.2) :: substConditionals f rest

end

/-- The statement rewriting performed by `optimize_variables`
(src/src/parsing/mod.rs lines 300-397) on a finished statement list: collect
the used `(block_level, var_index)` pairs, then rewrite every scoped
reference and every pre-compaction assignment to its dense-index form. -/
def optimizeVariablesRewrite (statements : List Statement) : List Statement :=
  substStatements (denseIdx (collectStatements [] statements)) statements

mutual

/-- A value is compacted when no scoped `Variable` reference occurs anywhere
inside it. -/
def valueCompacted : FullValue → Bool
  | .Null | .Boolean _ | .Integer _ | .Decimal _ | .String _ => true
  | .Array xs => valuesCompacted xs
  | .Function _ args => valuesCompacted args
  | .Variable _ _ => false
  | .DirectVariable _ => true

/-- All values of a list compacted. -/
def valuesCompacted : List FullValue → Bool
  | [] => true
  | v :: rest => valueCompacted v && valuesCompacted rest

end

mutual

/-- A statement is compacted when it is not a pre-compaction assignment, and
no nested statement is, and every value inside is compacted. -/
def statementCompacted : Statement → Bool
  | .WhileBlock condition statements => valueCompacted condition && statementsCompacted statements
  | .IfElseBlock conditional_statements => conditionalsCompacted conditional_statements
  | .UnoptimizedAssignament _ _ _ => false
  | .OptimizedAssignament _ value => valueCompacted value
  | .FnCall _ args => valuesCompacted args
  | .ReturnCall value => valueCompacted value

/-- All statements of a list compacted. -/
def statementsCompacted : List Statement → Bool
  | [] => true
  | s :: rest => statementCompacted s && statementsCompacted rest

/-- All conditional records compacted. -/
def conditionalsCompacted : List (FullValue × List Statement) → Bool
  | [] => true
  | c :: rest => valueCompacted c.1 && statementsCompacted c.2 && conditionalsCompacted rest

end

mutual

/-- `ExecutingContext::resolve_value` (src/src/execution/ast.rs lines
100-128), with the mutable `variables` frame threaded explicitly. A scoped
`Variable` hits `unreachable!()`, producing no result (`none`). A
`DirectVariable` replaces the cell by `Null` (`mem::replace`), resolves the
stored value, and memoizes the resolved value back into the cell. Fuel drops
on every call; `none` also means fuel ran out. Rust's out-of-bounds index
panic cannot occur for a compiled script and is modelled by the `getD`/`set`
defaults. -/
def resolveValue (fuel : Nat) (vars : List FullValue) :
    FullValue → Option (Except RuntimeError (MoonValue × List FullValue))
  | v =>
    match fuel with
    | 0 => none
    | fuel + 1 =>
      match v with
      | .Null => some (.ok (.Null, vars))
      | .Boolean b => some (.ok (.Boolean b, vars))
      | .Decimal d => some (.ok (.Decimal d, vars))
      | .Integer i => some (.ok (.Integer i, vars))
      | .String s => some (.ok (.String s, vars))
      | .Array xs =>
        match resolveValueList fuel vars xs with
        | none => none
        | some (.error e) => some (.error e)
        | some (.ok (ms, vars2)) => some (.ok (.Array ms, vars2))
      | .Function fn args =>
        match resolveArgResults fuel vars args with
        | none => none
        | some (results, vars2) =>
          match fn results with
          | .ok m => some (.ok (m, vars2))
          | .error e => some (.error e)
      | .Variable _ _ => none
      | .DirectVariable var_index =>
        let stored := vars.getD var_index .Null
        let vars1 := vars.set var_index .Null
        match resolveValue fuel vars1 stored with
        | none => none
        | some (.error e) => some (.error e)
        | some (.ok (m, vars2)) =>
          some (.ok (m, vars2.set var_index (FullValue.fromMoon m)))

/-- Array elements resolved left to right, the first error short-circuiting
(the `for`/`match` loop of the `Array` arm). Fuel drops once per element so
that the whole mutual block recurses structurally on fuel. -/
def resolveValueList (fuel : Nat) (vars : List FullValue) :
    List FullValue → Option (Except RuntimeError (List MoonValue × List FullValue))
  | [] => some (.ok ([], vars))
  | v :: rest =>
    match fuel with
    | 0 => none
    | fuel + 1 =>
      match resolveValue fuel vars v with
      | none => none
      | some (.error e) => some (.error e)
      | some (.ok (m, vars2)) =>
        match resolveValueList fuel vars2 rest with
        | none => none
        | some (.error e) => some (.error e)
        | some (.ok (ms, vars3)) => some (.ok (m :: ms, vars3))

/-- The per-argument results handed to a callable
(`args.iter().map(|arg| self.resolve_value(arg.clone()))`). The Rust iterator
is lazy; arguments are modelled as resolved eagerly left to right, a failing
argument contributing its error while later arguments resolve against the
frame as of the failure - observationally equal for pure callables, whose
only frame writes are memoizations. -/
def resolveArgResults (fuel : Nat) (vars : List FullValue) :
    List FullValue → Option (List (Except RuntimeError MoonValue) × List FullValue)
  | [] => some ([], vars)
  | v :: rest =>
    match fuel with
    | 0 => none
    | fuel + 1 =>
      match resolveValue fuel vars v with
      | none => none
      | some (.error e) =>
        match resolveArgResults fuel vars rest with
        | none => none
        | some (results, vars2) => some (.error e :: results, vars2)
      | some (.ok (m, vars2)) =>
        match resolveArgResults fuel vars2 rest with
        | none => none
        | some (results, vars3) => some (.ok m :: results, vars3)

end

mutual

/-- `ExecutingContext::execute_block` (src/src/execution/ast.rs lines
57-98): `some result` in the `Option MoonValue` component signals a reached
`return`. A failing Boolean conversion of a while predicate is tagged
`"while"`, of an if predicate `"if"`. The `UnoptimizedAssignament` arm is
`unreachable!()`. -/
def executeBlock (fuel : Nat) (vars : List FullValue) :
    Statement → Option (Except RuntimeError (Option MoonValue × List FullValue))
  | s =>
    match fuel with
    | 0 => none
    | fuel + 1 =>
      match s with
      | .WhileBlock condition statements =>
        match resolveValue fuel vars condition with
        | none => none
        | some (.error e) => some (.error e)
        | some (.ok (m, vars2)) =>
          match tryIntoBool f64FromStrModel m with
          | none => some (.error (.CannotTurnPredicateToBool "while" ""))
          | some false => some (.ok (none, vars2))
          | some true =>
            match executeStatementList fuel vars2 statements with
            | none => none
            | some (.error e) => some (.error e)
            | some (.ok (some res, vars3)) => some (.ok (some res, vars3))
            | some (.ok (none, vars3)) =>
              executeBlock fuel vars3 (.WhileBlock condition statements)
      | .IfElseBlock conditional_statements =>
        executeConditionals fuel vars conditional_statements
      | .UnoptimizedAssignament _ _ _ => none
      | .OptimizedAssignament var_index value =>
        match resolveValue fuel vars value with
        | none => none
        | some (.error e) => some (.error e)
        | some (.ok (m, vars2)) =>
          some (.ok (none, vars2.set var_index (FullValue.fromMoon m)))
      | .FnCall fn args =>
        match resolveArgResults fuel vars args with
        | none => none
        | some (results, vars2) =>
          match fn results with
          | .ok _ => some (.ok (none, vars2))
          | .error e => some (.error e)
      | .ReturnCall value =>
        match resolveValue fuel vars value with
        | none => none
        | some (.error e) => some (.error e)
        | some (.ok (m, vars2)) => some (.ok (some m, vars2))

/-- A statement sequence run in order, an inner `return` propagating
(the `for statement in statements` loops). Fuel drops once per element so
that the block recurses structurally on fuel. -/
def executeStatementList (fuel : Nat) (vars : List FullValue) :
    List Statement → Option (Except RuntimeError (Option MoonValue × List FullValue))
  | [] => some (.ok (none, vars))
  | s :: rest =>
    match fuel with
    | 0 => none
    | fuel + 1 =>
      match executeBlock fuel vars s with
      | none => none
      | some (.error e) => some (.error e)
      | some (.ok (some res, vars2)) => some (.ok (some res, vars2))
      | some (.ok (none, vars2)) => executeStatementList fuel vars2 rest

/-- The `IfElseBlock` arm: conditions are evaluated in order; the first
Boolean-true clause runs its statements and ends the whole statement
(`return Ok(None)` after the clause body). -/
def executeConditionals (fuel : Nat) (vars : List FullValue) :
    List (FullValue × List Statement) → Option (Except RuntimeError (Option MoonValue × List FullValue))
  | [] => some (.ok (none, vars))
  | c :: rest =>
    match fuel with
    | 0 => none
    | fuel + 1 =>
      match resolveValue fuel vars c.1 with
      | none => none
      | some (.error e) => some (.error e)
      | some (.ok (m, vars2)) =>
        match tryIntoBool f64FromStrModel m with
        | none => some (.error (.CannotTurnPredicateToBool "if" ""))
        | some true =>
          match executeStatementList fuel vars2 c.2 with
          | none => none
          | some (.error e) => some (.error e)
          | some (.ok (some res, vars3)) => some (.ok (some res, vars3))
          | some (.ok (none, vars3)) => some (.ok (none, vars3))
        | some false => executeConditionals fuel vars2 rest

end

/-- `ASTExecutor::push_variable` (src/src/execution/ast.rs lines 146-152):
when the name is a parameterized variable, its frame cell is overwritten with
the pushed value; otherwise the push is silently ignored. -/
def pushVariable (ast : AST) (vars : List FullValue) (name : String) (v : MoonValue) :
    List FullValue :=
  match ast.parameterized_variables.lookup name with
  | some idx => vars.set idx (FullValue.fromMoon v)
  | none => vars

/-- `ASTExecutor::execute` (src/src/execution/ast.rs lines 155-162): the
top-level statements run in order over a frame cloned from the AST; a reached
`return` yields its value, completion without one yields `Ok(Null)`. -/
def astExecute (fuel : Nat) (ast : AST) (vars : List FullValue) :
    Option (Except RuntimeError MoonValue) :=
  match executeStatementList fuel vars ast.statements with
  | none => none
  | some (.error e) => some (.error e)
  | some (.ok (some res, _)) => some (.ok res)
  | some (.ok (none, _)) => some (.ok .Null)

/-- Arena blocks (src/src/execution/optimized_ast.rs lines 42-61). A
`Direction` is a plain index and a `MultiDirection` a `(start, len)` range
into the pools. -/
inductive OptimizedBlock where
  | WhileBlock (condition : Nat) (stStart stLen : Nat) : OptimizedBlock
  | IfElseBlocks (blStart blLen : Nat) : OptimizedBlock
  | IfBlock (condition : Nat) (stStart stLen : Nat) : OptimizedBlock
  | OptimizedAssignament (var_index : Nat) (value : Nat) : OptimizedBlock
  | FnCall (fn : MoonFn) (argsStart argsLen : Nat) : OptimizedBlock
  | ReturnCall (value : Nat) : OptimizedBlock

/-- Arena values (optimized_ast.rs lines 76-85). -/
inductive OptimizedFullValue where
  | Null : OptimizedFullValue
  | Boolean (b : Bool) : OptimizedFullValue
  | Integer (i : Int) : OptimizedFullValue
  | Decimal (d : Rat) : OptimizedFullValue
  | String (s : String) : OptimizedFullValue
  | Array (start len : Nat) : OptimizedFullValue
  | Function (fn : MoonFn) (argsStart argsLen : Nat) : OptimizedFullValue
  | DirectVariable (var_index : Nat) : OptimizedFullValue

/-- An optimized runtime variable (optimized_ast.rs lines 69-73 and 87-90):
either an already-resolved plain value or a pointer into the value pool. -/
inductive OptimizedVariable where
  | Value (v : MoonValue) : OptimizedVariable
  | ASTValue (dir : Nat) : OptimizedVariable

/-- The flattened AST (optimized_ast.rs lines 92-100). The Rust field
`variables` is spelled `vars` because `variables` is a reserved command name
in Lean; `statements` is its `MultiDirection` split into start and length. -/
structure OptimizedAST where
  vars : List OptimizedVariable
  parameterized_variables : List (String × Nat)
  stStart : Nat
  stLen : Nat
  blocks : List OptimizedBlock
  values : List OptimizedFullValue

/-- The indices of a `MultiDirection`, in order (`start..start + len`). -/
def rangeDirs (start len : Nat) : List Nat :=
  (List.range len).map (fun k => start + k)

mutual

/-- Per-element step of `OptimizedAST::optimize_values` (optimized_ast.rs
lines 159-181): each value is converted, children first (extending the
pools), producing the item list to be appended afterwards. A scoped
`Variable` is `unreachable!()`. -/
def optimizeValuesGo (fuel : Nat) (st : OptimizedAST) :
    List FullValue → Option (OptimizedAST × List OptimizedFullValue)
  | [] => some (st, [])
  | v :: rest =>
    match fuel with
    | 0 => none
    | fuel + 1 =>
      match v with
      | .Null =>
        (optimizeValuesGo fuel st rest).map (fun r => (r.1, .Null :: r.2))
      | .Boolean b =>
        (optimizeValuesGo fuel st rest).map (fun r => (r.1, .Boolean b :: r.2))
      | .Integer i =>
        (optimizeValuesGo fuel st rest).map (fun r => (r.1, .Integer i :: r.2))
      | .Decimal d =>
        (optimizeValuesGo fuel st rest).map (fun r => (r.1, .Decimal d :: r.2))
      | .String s =>
        (optimizeValuesGo fuel st rest).map (fun r => (r.1, .String s :: r.2))
      | .Array xs =>
        match optimizeValues fuel st xs with
        | none => none
        | some (st2, start, len) =>
          (optimizeValuesGo fuel st2 rest).map (fun r => (r.1, .Array start len :: r.2))
      | .Function fn args =>
        match optimizeValues fuel st args with
        | none => none
        | some (st2, start, len) =>
          (optimizeValuesGo fuel st2 rest).map (fun r => (r.1, .Function fn start len :: r.2))
      | .DirectVariable vi =>
        (optimizeValuesGo fuel st rest).map (fun r => (r.1, .DirectVariable vi :: r.2))
      | .Variable _ _ => none

/-- `OptimizedAST::optimize_values`: convert the list (children extend the
pools during the map), then append the collected items to the value pool,
returning their `(start, len)` range. -/
def optimizeValues (fuel : Nat) (st : OptimizedAST) (values : List FullValue) :
    Option (OptimizedAST × Nat × Nat) :=
  match fuel with
  | 0 => none
  | fuel + 1 =>
    match optimizeValuesGo fuel st values with
    | none => none
    | some (st2, items) =>
      some ({ st2 with values := st2.values ++ items }, st2.values.length, items.length)

end

mutual

/-- Per-element step of `OptimizedAST::optimize_blocks` (optimized_ast.rs
lines 122-157): while bodies and if-else clause groups are flattened first
(each `IfElseBlock` appends its `IfBlock` items to the block pool during the
map and records their range); an `UnoptimizedAssignament` is
`unreachable!()`. -/
def optimizeBlocksGo (fuel : Nat) (st : OptimizedAST) :
    List Statement → Option (OptimizedAST × List OptimizedBlock)
  | [] => some (st, [])
  | s :: rest =>
    match fuel with
    | 0 => none
    | fuel + 1 =>
      match s with
      | .WhileBlock condition statements =>
        match optimizeValues fuel st [condition] with
        | none => none
        | some (st2, cstart, _) =>
          match optimizeBlocks fuel st2 statements with
          | none => none
          | some (st3, bstart, blen) =>
            (optimizeBlocksGo fuel st3 rest).map
              (fun r => (r.1, .WhileBlock cstart bstart blen :: r.2))
      | .IfElseBlock conditional_statements =>
        match optimizeIfBlocks fuel st conditional_statements with
        | none => none
        | some (st2, ifItems) =>
          let start := st2.blocks.length
          let st3 := { st2 with blocks := st2.blocks ++ ifItems }
          (optimizeBlocksGo fuel st3 rest).map
            (fun r => (r.1, .IfElseBlocks start ifItems.length :: r.2))
      | .OptimizedAssignament var_index value =>
        match optimizeValues fuel st [value] with
        | none => none
        | some (st2, vstart, _) =>
          (optimizeBlocksGo fuel st2 rest).map
            (fun r => (r.1, .OptimizedAssignament var_index vstart :: r.2))
      | .FnCall fn args =>
        match optimizeValues fuel st args with
        | none => none
        | some (st2, astart, alen) =>
          (optimizeBlocksGo fuel st2 rest).map (fun r => (r.1, .FnCall fn astart alen :: r.2))
      | .ReturnCall value =>
        match optimizeValues fuel st [value] with
        | none => none
        | some (st2, vstart, _) =>
          (optimizeBlocksGo fuel st2 rest).map (fun r => (r.1, .ReturnCall vstart :: r.2))
      | .UnoptimizedAssignament _ _ _ => none

/-- The `IfBlock` items of one `IfElseBlock`, each clause's condition and
body flattened in order. -/
def optimizeIfBlocks (fuel : Nat) (st : OptimizedAST) :
    List (FullValue × List Statement) → Option (OptimizedAST × List OptimizedBlock)
  | [] => some (st, [])
  | c :: rest =>
    match fuel with
    | 0 => none
    | fuel + 1 =>
      match optimizeValues fuel st [c.1] with
      | none => none
      | some (st2, cstart, _) =>
        match optimizeBlocks fuel st2 c.2 with
        | none => none
        | some (st3, bstart, blen) =>
          (optimizeIfBlocks fuel st3 rest).map
            (fun r => (r.1, .IfBlock cstart bstart blen :: r.2))

/-- `OptimizedAST::optimize_blocks`: convert the list, then append the
collected items to the block pool, returning their range. -/
def optimizeBlocks (fuel : Nat) (st : OptimizedAST) (blocks : List Statement) :
    Option (OptimizedAST × Nat × Nat) :=
  match fuel with
  | 0 => none
  | fuel + 1 =>
    match optimizeBlocksGo fuel st blocks with
    | none => none
    | some (st2, items) =>
      some ({ st2 with blocks := st2.blocks ++ items }, st2.blocks.length, items.length)

end

/-- Flattening of the runtime frame (`impl From<AST> for OptimizedAST`,
optimized_ast.rs lines 114-116): each variable's stored value is pushed into
the value pool and the cell becomes an `ASTValue` pointer at it. -/
def optimizeFrame (fuel : Nat) (st : OptimizedAST) :
    List FullValue → Option (OptimizedAST × List OptimizedVariable)
  | [] => some (st, [])
  | v :: rest =>
    match optimizeValues fuel st [v] with
    | none => none
    | some (st2, start, _) =>
      (optimizeFrame fuel st2 rest).map (fun r => (r.1, .ASTValue start :: r.2))

/-- `impl From<AST> for OptimizedAST` (optimized_ast.rs lines 103-119): the
statements are flattened first, then the frame. -/
def optimizedASTFrom (fuel : Nat) (ast : AST) : Option OptimizedAST :=
  let st0 : OptimizedAST :=
    { vars := []
      parameterized_variables := ast.parameterized_variables
      stStart := 0
      stLen := 0
      blocks := []
      values := [] }
  match optimizeBlocks fuel st0 ast.statements with
  | none => none
  | some (st1, start, len) =>
    match optimizeFrame fuel st1 ast.vars with
    | none => none
    | some (st2, frame) =>
      some { st2 with stStart := start, stLen := len, vars := frame }

mutual

/-- `OptimizedExecutingContext::resolve_value` (optimized_ast.rs lines
307-329), over a value-pool index. Out-of-range indices (a Rust panic,
unreachable for a flattened AST) resolve the `Null` default. -/
def optResolveValue (fuel : Nat) (ast : OptimizedAST) (vars : List OptimizedVariable)
    (dir : Nat) : Option (Except RuntimeError (MoonValue × List OptimizedVariable)) :=
  match fuel with
  | 0 => none
  | fuel + 1 =>
    match ast.values.getD dir .Null with
    | .Null => some (.ok (.Null, vars))
    | .Boolean b => some (.ok (.Boolean b, vars))
    | .Integer i => some (.ok (.Integer i, vars))
    | .Decimal d => some (.ok (.Decimal d, vars))
    | .String s => some (.ok (.String s, vars))
    | .Array start len =>
      match optResolveRange fuel ast vars (rangeDirs start len) with
      | none => none
      | some (.error e) => some (.error e)
      | some (.ok (ms, vars2)) => some (.ok (.Array ms, vars2))
    | .Function fn argsStart argsLen =>
      match optResolveArgResults fuel ast vars (rangeDirs argsStart argsLen) with
      | none => none
      | some (results, vars2) =>
        match fn results with
        | .ok m => some (.ok (m, vars2))
        | .error e => some (.error e)
    | .DirectVariable var_index => optResolveVariable fuel ast vars var_index

/-- `OptimizedExecutingContext::resolve_variable` (optimized_ast.rs lines
331-344): an already-plain cell is returned as is; an `ASTValue` cell is
resolved and then memoized as a plain value. -/
def optResolveVariable (fuel : Nat) (ast : OptimizedAST) (vars : List OptimizedVariable)
    (var_index : Nat) : Option (Except RuntimeError (MoonValue × List OptimizedVariable)) :=
  match fuel with
  | 0 => none
  | fuel + 1 =>
    match vars.getD var_index (.Value .Null) with
    | .Value v => some (.ok (v, vars))
    | .ASTValue dir =>
      match optResolveValue fuel ast vars dir with
      | none => none
      | some (.error e) => some (.error e)
      | some (.ok (m, vars2)) => some (.ok (m, vars2.set var_index (.Value m)))

/-- Array elements resolved left to right, first error short-circuiting.
Fuel drops once per element so that the block recurses structurally on
fuel. -/
def optResolveRange (fuel : Nat) (ast : OptimizedAST) (vars : List OptimizedVariable) :
    List Nat → Option (Except RuntimeError (List MoonValue × List OptimizedVariable))
  | [] => some (.ok ([], vars))
  | d :: rest =>
    match fuel with
    | 0 => none
    | fuel + 1 =>
      match optResolveValue fuel ast vars d with
      | none => none
      | some (.error e) => some (.error e)
      | some (.ok (m, vars2)) =>
        match optResolveRange fuel ast vars2 rest with
        | none => none
        | some (.error e) => some (.error e)
        | some (.ok (ms, vars3)) => some (.ok (m :: ms, vars3))

/-- Per-argument results for a callable, as in the tree walker. -/
def optResolveArgResults (fuel : Nat) (ast : OptimizedAST) (vars : List OptimizedVariable) :
    List Nat → Option (List (Except RuntimeError MoonValue) × List OptimizedVariable)
  | [] => some ([], vars)
  | d :: rest =>
    match fuel with
    | 0 => none
    | fuel + 1 =>
      match optResolveValue fuel ast vars d with
      | none => none
      | some (.error e) =>
        match optResolveArgResults fuel ast vars rest with
        | none => none
        | some (results, vars2) => some (.error e :: results, vars2)
      | some (.ok (m, vars2)) =>
        match optResolveArgResults fuel ast vars2 rest with
        | none => none
        | some (results, vars3) => some (.ok m :: results, vars3)

end

mutual

/-- `OptimizedExecutingContext::execute_block` (optimized_ast.rs lines
263-305), the recursive arena walker. Note the `WhileBlock` arm tags a
predicate that fails to convert to Boolean with
`type_of_statement: "if"` (line 267) - unlike the tree walker and the stack
walker, which tag it `"while"`. A bare `IfBlock` and a non-`IfBlock` inside
an `IfElseBlocks` range are `unreachable!()`. -/
def optExecuteBlock (fuel : Nat) (ast : OptimizedAST) (vars : List OptimizedVariable) :
    OptimizedBlock → Option (Except RuntimeError (Option MoonValue × List OptimizedVariable))
  | b =>
    match fuel with
    | 0 => none
    | fuel + 1 =>
      match b with
      | .WhileBlock condition stStart stLen =>
        match optResolveValue fuel ast vars condition with
        | none => none
        | some (.error e) => some (.error e)
        | some (.ok (m, vars2)) =>
          match tryIntoBool f64FromStrModel m with
          | none => some (.error (.CannotTurnPredicateToBool "if" ""))
          | some false => some (.ok (none, vars2))
          | some true =>
            match optExecuteBlockRange fuel ast vars2 (rangeDirs stStart stLen) with
            | none => none
            | some (.error e) => some (.error e)
            | some (.ok (some res, vars3)) => some (.ok (some res, vars3))
            | some (.ok (none, vars3)) =>
              optExecuteBlock fuel ast vars3 (.WhileBlock condition stStart stLen)
      | .IfBlock _ _ _ => none
      | .IfElseBlocks blStart blLen =>
        optExecuteIfRange fuel ast vars (rangeDirs blStart blLen)
      | .OptimizedAssignament var_index value =>
        match optResolveValue fuel ast vars value with
        | none => none
        | some (.error e) => some (.error e)
        | some (.ok (m, vars2)) => some (.ok (none, vars2.set var_index (.Value m)))
      | .FnCall fn argsStart argsLen =>
        match optResolveArgResults fuel ast vars (rangeDirs argsStart argsLen) with
        | none => none
        | some (results, vars2) =>
          match fn results with
          | .ok _ => some (.ok (none, vars2))
          | .error e => some (.error e)
      | .ReturnCall value =>
        match optResolveValue fuel ast vars value with
        | none => none
        | some (.error e) => some (.error e)
        | some (.ok (m, vars2)) => some (.ok (some m, vars2))

/-- A block-index range run in order, an inner `return` propagating. Fuel
drops once per element so that the block recurses structurally on fuel. -/
def optExecuteBlockRange (fuel : Nat) (ast : OptimizedAST) (vars : List OptimizedVariable) :
    List Nat → Option (Except RuntimeError (Option MoonValue × List OptimizedVariable))
  | [] => some (.ok (none, vars))
  | d :: rest =>
    match fuel with
    | 0 => none
    | fuel + 1 =>
      match optExecuteBlock fuel ast vars (ast.blocks.getD d (.IfElseBlocks 0 0)) with
      | none => none
      | some (.error e) => some (.error e)
      | some (.ok (some res, vars2)) => some (.ok (some res, vars2))
      | some (.ok (none, vars2)) => optExecuteBlockRange fuel ast vars2 rest

/-- The `IfElseBlocks` arm of the recursive walker: each referenced block
must be an `IfBlock` (`unreachable!()` otherwise); the first Boolean-true
condition runs its statements and ends the whole statement. -/
def optExecuteIfRange (fuel : Nat) (ast : OptimizedAST) (vars : List OptimizedVariable) :
    List Nat → Option (Except RuntimeError (Option MoonValue × List OptimizedVariable))
  | [] => some (.ok (none, vars))
  | d :: rest =>
    match fuel with
    | 0 => none
    | fuel + 1 =>
      match ast.blocks.getD d (.IfElseBlocks 0 0) with
      | .IfBlock condition stStart stLen =>
        match optResolveValue fuel ast vars condition with
        | none => none
        | some (.error e) => some (.error e)
        | some (.ok (m, vars2)) =>
          match tryIntoBool f64FromStrModel m with
          | none => some (.error (.CannotTurnPredicateToBool "if" ""))
          | some true =>
            match optExecuteBlockRange fuel ast vars2 (rangeDirs stStart stLen) with
            | none => none
            | some (.error e) => some (.error e)
            | some (.ok (some res, vars3)) => some (.ok (some res, vars3))
            | some (.ok (none, vars3)) => some (.ok (none, vars3))
          | some false => optExecuteIfRange fuel ast vars2 rest
      | _ => none

end

/-- `OptimizedASTExecutor::execute` (optimized_ast.rs lines 210-217). -/
def optExecute (fuel : Nat) (ast : OptimizedAST) (vars : List OptimizedVariable) :
    Option (Except RuntimeError MoonValue) :=
  match optExecuteBlockRange fuel ast vars (rangeDirs ast.stStart ast.stLen) with
  | none => none
  | some (.error e) => some (.error e)
  | some (.ok (some res, _)) => some (.ok res)
  | some (.ok (none, _)) => some (.ok .Null)

/-- The `IfElseBlocks` handling inside `execute_stack` (optimized_ast.rs
lines 231-244): scan the `IfBlock` range, resolving each condition in turn;
the first Boolean-true clause yields its statement range (to be pushed) and
stops the scan. -/
def optStackIfScan (fuel : Nat) (ast : OptimizedAST) (vars : List OptimizedVariable) :
    List Nat → Option (Except RuntimeError (List Nat × List OptimizedVariable))
  | [] => some (.ok ([], vars))
  | d :: rest =>
    match fuel with
    | 0 => none
    | fuel + 1 =>
      match ast.blocks.getD d (.IfElseBlocks 0 0) with
      | .IfBlock condition stStart stLen =>
        match optResolveValue fuel ast vars condition with
        | none => none
        | some (.error e) => some (.error e)
        | some (.ok (m, vars2)) =>
          match tryIntoBool f64FromStrModel m with
          | none => some (.error (.CannotTurnPredicateToBool "if" ""))
          | some true => some (.ok (rangeDirs stStart stLen, vars2))
          | some false => optStackIfScan fuel ast vars2 rest
      | _ => none

/-- The explicit-stack loop of `OptimizedASTExecutor::execute_stack`
(optimized_ast.rs lines 219-259). The deque holds block indices; a true
while predicate re-pushes the while block behind its body
(`push_front(block_dir)` then the statements reversed), a false one drops
it; the predicate failure tag here is `"while"`. `some res` signals the
`return` that exits the loop; draining the stack completes without one. -/
def optExecuteStackLoop (fuel : Nat) (ast : OptimizedAST) (vars : List OptimizedVariable) :
    List Nat → Option (Except RuntimeError (Option MoonValue × List OptimizedVariable))
  | stack =>
    match fuel with
    | 0 => none
    | fuel + 1 =>
      match stack with
      | [] => some (.ok (none, vars))
      | d :: rest =>
        match ast.blocks.getD d (.IfElseBlocks 0 0) with
        | .WhileBlock condition stStart stLen =>
          match optResolveValue fuel ast vars condition with
          | none => none
          | some (.error e) => some (.error e)
          | some (.ok (m, vars2)) =>
            match tryIntoBool f64FromStrModel m with
            | none => some (.error (.CannotTurnPredicateToBool "while" ""))
            | some true =>
              optExecuteStackLoop fuel ast vars2 (rangeDirs stStart stLen ++ d :: rest)
            | some false => optExecuteStackLoop fuel ast vars2 rest
        | .IfElseBlocks blStart blLen =>
          match optStackIfScan fuel ast vars (rangeDirs blStart blLen) with
          | none => none
          | some (.error e) => some (.error e)
          | some (.ok (pushed, vars2)) => optExecuteStackLoop fuel ast vars2 (pushed ++ rest)
        | .IfBlock _ _ _ => none
        | .OptimizedAssignament var_index value =>
          match optResolveValue fuel ast vars value with
          | none => none
          | some (.error e) => some (.error e)
          | some (.ok (m, vars2)) =>
            optExecuteStackLoop fuel ast (vars2.set var_index (.Value m)) rest
        | .FnCall fn argsStart argsLen =>
          match optResolveArgResults fuel ast vars (rangeDirs argsStart argsLen) with
          | none => none
          | some (results, vars2) =>
            match fn results with
            | .ok _ => optExecuteStackLoop fuel ast vars2 rest
            | .error e => some (.error e)
        | .ReturnCall value =>
          match optResolveValue fuel ast vars value with
          | none => none
          | some (.error e) => some (.error e)
          | some (.ok (m, vars2)) => some (.ok (some m, vars2))

/-- `OptimizedASTExecutor::execute_stack`: run the loop over the top-level
statement range; a drained stack yields `Ok(Null)`. -/
def optExecuteStack (fuel : Nat) (ast : OptimizedAST) (vars : List OptimizedVariable) :
    Option (Except RuntimeError MoonValue) :=
  match optExecuteStackLoop fuel ast vars (rangeDirs ast.stStart ast.stLen) with
  | none => none
  | some (.error e) => some (.error e)
  | some (.ok (some res, _)) => some (.ok res)
  | some (.ok (none, _)) => some (.ok .Null)

/-- The compiled form of the script `while flag { }` with an input variable
`flag` declared without a value: the condition is the lone surviving
variable's direct reference, the frame holds its `Null` first value, and
`flag` is parameterized at dense index 0. Executing it without pushing a
value makes the while predicate resolve to `Null`, which does not convert
to Boolean. -/
def astWhileNull : AST :=
  { statements := [.WhileBlock (.DirectVariable 0) []]
    vars := [.Null]
    parameterized_variables := [("flag", 0)] }

/-- A script AST whose single statement is an assignment: its top-level
statements always complete without reaching a `return`. -/
def astAssignOnly : AST :=
  { statements := [.OptimizedAssignament 0 (.Integer 5)]
    vars := [.Null]
    parameterized_variables := [] }

/-- A compile-time variable `a` with tracked simple value `Integer 1`,
inlineable - the state after `let a = 1;`. -/
def varA : InputVariable :=
  { name := "a"
    first_value := .Integer 1
    associated_type_name := some "int"
    current_known_value := some (.Integer 1)
    type_is_valid_up_to_depth := 1
    value_is_valid_up_to_depth := 1
    can_inline := true }

/-- A context holding only `a`, parsing under way. -/
def ctxA : ContextBuilder :=
  { ContextBuilder.default with in_use_variables := [(0, [varA])], started_parsing := true }

/-- The token sequence of `2 * 3 + 5 > 4 && true`, as pest hands the flat
primary/operator alternation of the `BINARY_OPERATION` node to the Pratt
parser. -/
def c2Expr1 : Token :=
  .binary_operation (.integer "2")
    [(.mul, .integer "3"), (.sum, .integer "5"), (.gt, .integer "4"), (.and, .boolean "true")]

/-- The token sequence of `true && 4 < 5 + 3 * 2`. -/
def c2Expr2 : Token :=
  .binary_operation (.boolean "true")
    [(.and, .integer "4"), (.lt, .integer "5"), (.sum, .integer "3"), (.mul, .integer "2")]

/-- A host function stub for registry lookups (its behaviour never runs in a
settled theorem). -/
def dummyFnInfo : FunctionInfo :=
  { can_inline_result := false
    function := fun _ => Except.ok MoonValue.Null
    return_type_name := none }

/-- A registry with no bare built-in functions and two modules in iteration
order: `"a"`, which defines nothing, and `"b"`, which defines `f`. Under the
`no_std` build's `BTreeMap` this is exactly the iteration order of modules
named `"a"` and `"b"`. -/
def c7Engine : Engine :=
  { associated_functions := []
    functions := [("a", []), ("b", [("f", dummyFnInfo)])]
    built_in_associated_functions := []
    built_in_functions := []
    binary_operators := []
    unary_operators := []
    constants := [] }

/-- The default engine with the same operator table but nothing marked
inlineable (no `.inline()`), used to exhibit the grouping the Pratt table
induces: with inlining off, the fold emits one function node per reduction
and the nesting becomes visible. -/
def engineNoInline : Engine :=
  { engineDefault with
    binary_operators := getBinaryOperators.map (fun p => (p.1, FunctionInfo.newBinary p.2)) }

/-- The flattened form of `astAssignOnly` (computed by `optimizedASTFrom`;
the fallback of the `getD` is never taken, six units of fuel being ample
for a one-statement script). -/
def oastAssignOnly : OptimizedAST :=
  (optimizedASTFrom 6 astAssignOnly).getD
    { vars := [], parameterized_variables := [], stStart := 0, stLen := 0,
      blocks := [], values := [] }

mutual

/-- Decidable structural equality for `MoonValue`, agreeing with the derived
`PartialEq` semantics. -/
def MoonValue.decEq : (a b : MoonValue) → Decidable (a = b)
  | .Null, .Null => .isTrue rfl
  | .Boolean a, .Boolean b =>
    if h : a = b then .isTrue (by rw [h]) else .isFalse (fun hh => h (MoonValue.Boolean.inj hh))
  | .Integer a, .Integer b =>
    if h : a = b then .isTrue (by rw [h]) else .isFalse (fun hh => h (MoonValue.Integer.inj hh))
  | .Decimal a, .Decimal b =>
    if h : a = b then .isTrue (by rw [h]) else .isFalse (fun hh => h (MoonValue.Decimal.inj hh))
  | .String a, .String b =>
    if h : a = b then .isTrue (by rw [h]) else .isFalse (fun hh => h (MoonValue.String.inj hh))
  | .Array a, .Array b =>
    match MoonValue.decEqList a b with
    | .isTrue h => .isTrue (by rw [h])
    | .isFalse h => .isFalse (fun hh => h (MoonValue.Array.inj hh))
  | .Null, .Boolean _ => .isFalse (fun hh => MoonValue.noConfusion hh)
  | .Null, .Integer _ => .isFalse (fun hh => MoonValue.noConfusion hh)
  | .Null, .Decimal _ => .isFalse (fun hh => MoonValue.noConfusion hh)
  | .Null, .String _ => .isFalse (fun hh => MoonValue.noConfusion hh)
  | .Null, .Array _ => .isFalse (fun hh => MoonValue.noConfusion hh)
  | .Boolean _, .Null => .isFalse (fun hh => MoonValue.noConfusion hh)
  | .Boolean _, .Integer _ => .isFalse (fun hh => MoonValue.noConfusion hh)
  | .Boolean _, .Decimal _ => .isFalse (fun hh => MoonValue.noConfusion hh)
  | .Boolean _, .String _ => .isFalse (fun hh => MoonValue.noConfusion hh)
  | .Boolean _, .Array _ => .isFalse (fun hh => MoonValue.noConfusion hh)
  | .Integer _, .Null => .isFalse (fun hh => MoonValue.noConfusion hh)
  | .Integer _, .Boolean _ => .isFalse (fun hh => MoonValue.noConfusion hh)
  | .Integer _, .Decimal _ => .isFalse (fun hh => MoonValue.noConfusion hh)
  | .Integer _, .String _ => .isFalse (fun hh => MoonValue.noConfusion hh)
  | .Integer _, .Array _ => .isFalse (fun hh => MoonValue.noConfusion hh)
  | .Decimal _, .Null => .isFalse (fun hh => MoonValue.noConfusion hh)
  | .Decimal _, .Boolean _ => .isFalse (fun hh => MoonValue.noConfusion hh)
  | .Decimal _, .Integer _ => .isFalse (fun hh => MoonValue.noConfusion hh)
  | .Decimal _, .String _ => .isFalse (fun hh => MoonValue.noConfusion hh)
  | .Decimal _, .Array _ => .isFalse (fun hh => MoonValue.noConfusion hh)
  | .String _, .Null => .isFalse (fun hh => MoonValue.noConfusion hh)
  | .String _, .Boolean _ => .isFalse (fun hh => MoonValue.noConfusion hh)
  | .String _, .Integer _ => .isFalse (fun hh => MoonValue.noConfusion hh)
  | .String _, .Decimal _ => .isFalse (fun hh => MoonValue.noConfusion hh)
  | .String _, .Array _ => .isFalse (fun hh => MoonValue.noConfusion hh)
  | .Array _, .Null => .isFalse (fun hh => MoonValue.noConfusion hh)
  | .Array _, .Boolean _ => .isFalse (fun hh => MoonValue.noConfusion hh)
  | .Array _, .Integer _ => .isFalse (fun hh => MoonValue.noConfusion hh)
  | .Array _, .Decimal _ => .isFalse (fun hh => MoonValue.noConfusion hh)
  | .Array _, .String _ => .isFalse (fun hh => MoonValue.noConfusion hh)

/-- Decidable elementwise equality for value lists. -/
def MoonValue.decEqList : (a b : List MoonValue) → Decidable (a = b)
  | [], [] => .isTrue rfl
  | [], _ :: _ => .isFalse (fun hh => List.noConfusion hh)
  | _ :: _, [] => .isFalse (fun hh => List.noConfusion hh)
  | a :: as', b :: bs' =>
    match MoonValue.decEq a b, MoonValue.decEqList as' bs' with
    | .isTrue h1, .isTrue h2 => .isTrue (by rw [h1, h2])
    | .isFalse h1, _ => .isFalse (fun hh => h1 (List.cons.inj hh).1)
    | _, .isFalse h2 => .isFalse (fun hh => h2 (List.cons.inj hh).2)

end

instance : DecidableEq MoonValue := MoonValue.decEq

/-- Decidable equality on `Except` results, for evaluating executor outcomes
in closed theorems. -/
def exceptDecEq {e a : Type} [DecidableEq e] [DecidableEq a] :
    (x y : Except e a) → Decidable (x = y)
  | .ok x, .ok y =>
    if h : x = y then .isTrue (by rw [h]) else .isFalse (fun hh => h (Except.ok.inj hh))
  | .error x, .error y =>
    if h : x = y then .isTrue (by rw [h]) else .isFalse (fun hh => h (Except.error.inj hh))
  | .ok _, .error _ => .isFalse (fun hh => Except.noConfusion hh)
  | .error _, .ok _ => .isFalse (fun hh => Except.noConfusion hh)

instance {e a : Type} [DecidableEq e] [DecidableEq a] : DecidableEq (Except e a) := exceptDecEq

mutual

theorem substValue_compacted (f : Nat → Nat → Nat) :
    (v : FullValue) → valueCompacted (substValue f v) = true
  | .Null => rfl
  | .Boolean _ => rfl
  | .Integer _ => rfl
  | .Decimal _ => rfl
  | .String _ => rfl
  | .Array xs => by simp [substValue, valueCompacted, substValues_compacted f xs]
  | .Function fn args => by simp [substValue, valueCompacted, substValues_compacted f args]
  | .Variable _ _ => rfl
  | .DirectVariable _ => rfl

theorem substValues_compacted (f : Nat → Nat → Nat) :
    (xs : List FullValue) → valuesCompacted (substValues f xs) = true
  | [] => rfl
  | v :: rest => by
    simp [substValues, valuesCompacted, substValue_compacted f v, substValues_compacted f rest]

end

mutual

theorem substStatement_compacted (f : Nat → Nat → Nat) :
    (s : Statement) → statementCompacted (substStatement f s) = true
  | .WhileBlock condition statements => by
    simp [substStatement, statementCompacted, substValue_compacted f condition,
      substStatements_compacted f statements]
  | .IfElseBlock conditional_statements => by
    simp [substStatement, statementCompacted,
      substConditionals_compacted f conditional_statements]
  | .UnoptimizedAssignament bl vi value => by
    simp [substStatement, statementCompacted, substValue_compacted f value]
  | .OptimizedAssignament vi value => by
    simp [substStatement, statementCompacted, substValue_compacted f value]
  | .FnCall fn args => by
    simp [substStatement, statementCompacted, substValues_compacted f args]
  | .ReturnCall value => by
    simp [substStatement, statementCompacted, substValue_compacted f value]

theorem substStatements_compacted (f : Nat → Nat → Nat) :
    (ss : List Statement) → statementsCompacted (substStatements f ss) = true
  | [] => rfl
  | s :: rest => by
    simp [substStatements, statementsCompacted, substStatement_compacted f s,
      substStatements_compacted f rest]

theorem substConditionals_compacted (f : Nat → Nat → Nat) :
    (cs : List (FullValue × List Statement)) →
      conditionalsCompacted (substConditionals f cs) = true
  | [] => rfl
  | c :: rest => by
    simp [substConditionals, conditionalsCompacted, substValue_compacted f c.1,
      substStatements_compacted f c.2, substConditionals_compacted f rest]

end

set_option maxRecDepth 8000 in
/-- C1. The claim states that `ASTExecutor::execute`,
`OptimizedASTExecutor::execute` and `OptimizedASTExecutor::execute_stack`
return equal values or equal runtime errors for the same compiled script and
inputs. On the compiled form of `while flag { }` executed with `flag`
unset (so the predicate resolves to `Null` and fails the Boolean
conversion), the tree walker and the stack walker report
`CannotTurnPredicateToBool` tagged `"while"`, but the recursive arena walker
reports it tagged `"if"` (optimized_ast.rs line 267) - an unequal runtime
error, contradicting the claim; the code slip is the `"if"` tag on a while
statement. -/
theorem c1_executor_while_error_tag_divergence :
    astExecute 20 astWhileNull astWhileNull.vars
      = some (.error (.CannotTurnPredicateToBool "while" "")) ∧
    (optimizedASTFrom 20 astWhileNull).bind (fun o => optExecute 20 o o.vars)
      = some (.error (.CannotTurnPredicateToBool "if" "")) ∧
    (optimizedASTFrom 20 astWhileNull).bind (fun o => optExecuteStack 20 o o.vars)
      = some (.error (.CannotTurnPredicateToBool "while" "")) ∧
    RuntimeError.CannotTurnPredicateToBool "if" "" ≠
      RuntimeError.CannotTurnPredicateToBool "while" "" := by
  refine ⟨?_, ?_, ?_, ?_⟩
  · rfl
  · rfl
  · rfl
  · decide

set_option maxRecDepth 8000 in
/-- Supporting evidence for the C2 determination: with the same Pratt table
but inlining disabled, the fold of `2 * 3 + 5 > 4 && true` exhibits the
grouping `(2*3) + (5 > (4 && true))` - `&&` binds tightest and `+`
loosest under the table's registration order. -/
theorem c2Expr1_grouping_without_inlining :
    buildValueToken 9 engineNoInline ContextBuilder.default c2Expr1 =
      .ok (.Function (binOpToMoonFn opAdd)
        [.Function (binOpToMoonFn opMul) [.Integer 2, .Integer 3],
         .Function (binOpToMoonFn opGt)
           [.Integer 5, .Function (binOpToMoonFn opAnd) [.Integer 4, .Boolean true]]]) := rfl

set_option maxRecDepth 8000 in
/-- C2. The claim states that with the built-in operator table and the
documented precedence, `2 * 3 + 5 > 4 && true` and `true && 4 < 5 + 3 * 2`
both compile and evaluate to `Boolean(true)` (the repository's own
`test_precedence` in src/src/lib.rs asserts the same). With the Pratt table
as constructed in src/ - `sum`/`sub` registered first and `or`/`xor`/`and`
last, hence, under pest's lowest-first convention, `&&` binding tightest and
`+`/`-` loosest - the first expression parses as `(2*3) + (5 > (4 && true))`
and the second as `(true && 4) < ...`, and in both the inline fold of `&&`
over an Integer and a Boolean operand fails, so both expressions fail to
compile with a `CouldntInlineFunction` diagnostic instead of yielding
`Boolean(true)`. -/
theorem c2_precedence_scenarios_fail_to_compile :
    buildValueToken 9 engineDefault ContextBuilder.default c2Expr1 =
      .error [.CouldntInlineFunction "&&"
        (.FunctionError "Operator '&&' can only be applied between boolean, integers or decimals")] ∧
    buildValueToken 9 engineDefault ContextBuilder.default c2Expr2 =
      .error [.CouldntInlineFunction "&&"
        (.FunctionError "Operator '&&' can only be applied between boolean, integers or decimals")] := by
  constructor
  · rfl
  · rfl

/-- C3 counterexample. The claim states that inside a while condition no
variable is inlineable, every use being emitted as a variable reference. In
the context after `let a = 1;`, building the while statement of
`while a { }` substitutes the tracked value: the condition is the literal
`Integer 1`, not a variable reference. -/
theorem c3_counterexample_while_condition_inlines_tracked_value :
    buildWhileStatementCond 9 engineDefault ctxA (.ident "a") [] =
      .ok (.WhileBlock (.Integer 1) []) ∧
    (∀ bl vi, FullValue.Integer 1 ≠ FullValue.Variable bl vi) :=
  ⟨rfl, fun _ _ h => FullValue.noConfusion h⟩

/-- C3 amended. While conditions are built by the ordinary value builder
with no inlining suppression: a variable whose inlineable tracked value is
simple is substituted by that value in the while condition, and only a
variable without a simple inlineable tracked value is emitted as a scoped
variable reference. -/
theorem c3_while_condition_inlining_behaviour (fuel : Nat) (base : Engine)
    (ctx : ContextBuilder) (name : String) (bl vi : Nat) (v : InputVariable)
    (body : List Statement)
    (hfind : ctx.find_variable name = some (bl, vi, v)) :
    (∀ kv, v.inlineable_value = some kv → kv.is_simple_value = true →
      buildWhileStatementCond fuel base ctx (.ident name) body = .ok (.WhileBlock kv body)) ∧
    ((v.inlineable_value.map FullValue.is_simple_value).getD false = false →
      buildWhileStatementCond fuel base ctx (.ident name) body =
        .ok (.WhileBlock (.Variable bl vi) body)) := by
  constructor
  · intro kv hkv hsimple
    simp [buildWhileStatementCond, buildValueToken, hfind, hkv, hsimple]
  · intro hns
    simp [buildWhileStatementCond, buildValueToken, hfind, hns]

/-- C3 witness: the amended statement applied to the concrete context after
`let a = 1;`. -/
theorem c3_while_condition_inlining_behaviour_witness :
    buildWhileStatementCond 9 engineDefault ctxA (.ident "a") [] =
      .ok (.WhileBlock (.Integer 1) []) :=
  (c3_while_condition_inlining_behaviour 9 engineDefault ctxA "a" 0 0 varA [] rfl).1
    (.Integer 1) rfl rfl

/-- C4 counterexample. The claim lists `||` among the binary operator
symbols that `find_binary_operator` resolves on a fresh engine; the source
operator table has no `"||"` entry, so the lookup misses. -/
theorem c4_counterexample_or_operator_missing :
    engineDefault.find_binary_operator "||" = none := rfl

/-- C4 amended. On a newly constructed engine, `find_binary_operator`
returns a registered function for each of the fifteen operator symbols that
the source table defines - `^`, `&&`, `<<`, `>>`, the six comparisons, `%`,
`*`, `/`, `+` and `-`, but not `||` - and every one of them is marked
inlineable. -/
theorem c4_fifteen_binary_operators_registered_inlineable :
    (["+", "-", "*", "/", "%", "&&", "^", "<<", ">>", "==", "!=", ">", "<", ">=", "<="].all
      (fun s => ((engineDefault.find_binary_operator s).map
        (fun fi => fi.can_inline_result)).getD false)) = true := rfl

set_option maxRecDepth 8000 in
/-- C5. The claim states the String-to-Boolean conversion accepts exactly
`true|yes|false|no` (with `yes ↦ true`, `no ↦ false`) and otherwise applies
the numeric `≥ 1` rule. The code diverges on all three counts: `"no"`
converts to `true` (the first branch tests `eq("true") || eq("no")`),
`"yes"` is not accepted at all and falls through to number parsing, which
fails (`f64::from_str("yes")` errs, taken as the hypothesis on the abstract
float parser), and the integer fallback uses `n > 1`, so `"1"` converts to
`false` though the rule says `≥ 1` is true. -/
theorem c5_string_to_bool_divergences (p : String → Option Rat)
    (hyes : p "yes" = none) :
    tryIntoBool p (.String "no") = some true ∧
    tryIntoBool p (.String "yes") = none ∧
    tryIntoBool p (.String "1") = some false := by
  refine ⟨rfl, ?_, rfl⟩
  have hdef : tryIntoBool p (.String "yes") =
      (match p "yes" with
       | some d => some (decide (d ≥ 1))
       | none => none) := rfl
  rw [hdef, hyes]

/-- C5 witness: the divergences evaluated with the modelled float parser,
which indeed rejects `"yes"`. -/
theorem c5_string_to_bool_divergences_witness :
    tryIntoBool f64FromStrModel (.String "no") = some true ∧
    tryIntoBool f64FromStrModel (.String "yes") = none ∧
    tryIntoBool f64FromStrModel (.String "1") = some false :=
  c5_string_to_bool_divergences f64FromStrModel rfl

set_option maxRecDepth 8000 in
/-- C6 counterexample. The claim states the saturating extreme matches the
overflow direction. `i128::MAX - (-1)` overflows upward, so the claim
demands `INT_MAX`; the `-` operator is `checked_sub(..).unwrap_or(i128::MIN)`
and yields `INT_MIN`. -/
theorem c6_counterexample_negative_extreme_on_positive_overflow :
    opSub (.Integer INT_MAX) (.Integer (-1)) = .ok (.Integer INT_MIN) ∧
    INT_MIN ≠ INT_MAX := by
  constructor
  · rfl
  · decide

/-- C6 amended. Integer arithmetic saturates at a fixed per-operator
extreme, regardless of the overflow direction: `+` and `*` saturate at
`INT_MAX` on any overflow, `-` saturates at `INT_MIN` on any overflow, and
integer division by zero yields `INT_MAX`. -/
theorem c6_fixed_extreme_overflow_and_div_by_zero (a b : Int) :
    ((INT_MAX < a + b ∨ a + b < INT_MIN) →
      opAdd (.Integer a) (.Integer b) = .ok (.Integer INT_MAX)) ∧
    ((INT_MAX < a - b ∨ a - b < INT_MIN) →
      opSub (.Integer a) (.Integer b) = .ok (.Integer INT_MIN)) ∧
    ((INT_MAX < a * b ∨ a * b < INT_MIN) →
      opMul (.Integer a) (.Integer b) = .ok (.Integer INT_MAX)) ∧
    opDiv (.Integer a) (.Integer 0) = .ok (.Integer INT_MAX) := by
  refine ⟨?_, ?_, ?_, ?_⟩
  · intro h
    have hnone : checkedAdd a b = none := by
      unfold checkedAdd
      rw [if_neg (by omega)]
    simp [opAdd, arithmeticChoice, arithmeticResult, arithmeticLevel,
      ARITHMETIC_RESULT_BOOL, ARITHMETIC_RESULT_INT, ARITHMETIC_RESULT_DECIMAL,
      tryIntoI128, hnone]
  · intro h
    have hnone : checkedSub a b = none := by
      unfold checkedSub
      rw [if_neg (by omega)]
    simp [opSub, arithmeticChoice, arithmeticResult, arithmeticLevel,
      ARITHMETIC_RESULT_BOOL, ARITHMETIC_RESULT_INT, ARITHMETIC_RESULT_DECIMAL,
      tryIntoI128, hnone]
  · intro h
    have hnone : checkedMul a b = none := by
      unfold checkedMul
      rw [if_neg (by omega)]
    simp [opMul, arithmeticChoice, arithmeticResult, arithmeticLevel,
      ARITHMETIC_RESULT_BOOL, ARITHMETIC_RESULT_INT, ARITHMETIC_RESULT_DECIMAL,
      tryIntoI128, hnone]
  · simp [opDiv, arithmeticChoice, arithmeticResult, arithmeticLevel,
      ARITHMETIC_RESULT_BOOL, ARITHMETIC_RESULT_INT, ARITHMETIC_RESULT_DECIMAL,
      tryIntoI128, intDivBranch, checkedDiv]

set_option maxRecDepth 8000 in
/-- C6 witness: the amended statement at concrete overflowing operands and
at a division by zero. -/
theorem c6_fixed_extreme_overflow_and_div_by_zero_witness :
    opAdd (.Integer INT_MAX) (.Integer 1) = .ok (.Integer INT_MAX) ∧
    opSub (.Integer INT_MIN) (.Integer 1) = .ok (.Integer INT_MIN) ∧
    opMul (.Integer INT_MAX) (.Integer 2) = .ok (.Integer INT_MAX) ∧
    opDiv (.Integer 7) (.Integer 0) = .ok (.Integer INT_MAX) :=
  ⟨(c6_fixed_extreme_overflow_and_div_by_zero INT_MAX 1).1 (by decide),
   (c6_fixed_extreme_overflow_and_div_by_zero INT_MIN 1).2.1 (by decide),
   (c6_fixed_extreme_overflow_and_div_by_zero INT_MAX 2).2.2.1 (by decide),
   (c6_fixed_extreme_overflow_and_div_by_zero 7 0).2.2.2⟩

/-- C7 counterexample. The claim states that a bare-name lookup missing the
built-ins searches the modules with the first match winning, so a function
defined by exactly one module (and by no built-in) is found. In a registry
whose modules iterate as `"a"` (empty) then `"b"` (defining `f`),
`find_function(None, None, "f")` returns `None` although module `"b"`
defines `f` and no built-in does. -/
theorem c7_counterexample_second_module_not_searched :
    c7Engine.find_function none none "f" = none ∧
    (c7Engine.functions.lookup "b").bind (fun m => m.lookup "f") = some dummyFnInfo ∧
    c7Engine.built_in_functions.lookup "f" = none :=
  ⟨rfl, rfl, rfl⟩

/-- C7 amended. A bare-name lookup first searches the built-in bare
functions; on a miss it consults only the first module in iteration order
(`.iter().map(..).next().flatten()`), returning that single module's lookup
result - modules after the first are never searched. -/
theorem c7_bare_lookup_consults_only_first_module (e : Engine) (name : String)
    (hmiss : e.built_in_functions.lookup name = none) :
    e.find_function none none name = e.functions.head?.bind (fun m => m.2.lookup name) := by
  simp [Engine.find_function, hmiss]

/-- C7 witness: the amended statement at the two-module registry. -/
theorem c7_bare_lookup_consults_only_first_module_witness :
    c7Engine.find_function none none "f" =
      c7Engine.functions.head?.bind (fun m => m.2.lookup "f") :=
  c7_bare_lookup_consults_only_first_module c7Engine "f" rfl

/-- C8. After the liveness/compaction rewriting of `optimize_variables`,
the statement list contains no pre-compaction (`UnoptimizedAssignament`)
statement and no scoped (`Variable`) reference anywhere in its statements
or values: every surviving assignment carries a dense index and every
surviving variable use is a direct reference. -/
theorem c8_compaction_leaves_no_scoped_refs (statements : List Statement) :
    statementsCompacted (optimizeVariablesRewrite statements) = true :=
  substStatements_compacted _ statements

/-- C9. Whenever the top-level statements of a compiled script run to
completion without reaching a `return`, each executor yields `Ok(Null)`
rather than an error: the tree walker, the recursive arena walker and the
explicit-stack arena walker all fall through to their final `Ok(Null)`. -/
theorem c9_completion_without_return_yields_null (fuel : Nat) (ast : AST)
    (oast : OptimizedAST) :
    (∀ vs, executeStatementList fuel ast.vars ast.statements = some (.ok (none, vs)) →
      astExecute fuel ast ast.vars = some (.ok .Null)) ∧
    (∀ vs, optExecuteBlockRange fuel oast oast.vars (rangeDirs oast.stStart oast.stLen) =
        some (.ok (none, vs)) →
      optExecute fuel oast oast.vars = some (.ok .Null)) ∧
    (∀ vs, optExecuteStackLoop fuel oast oast.vars (rangeDirs oast.stStart oast.stLen) =
        some (.ok (none, vs)) →
      optExecuteStack fuel oast oast.vars = some (.ok .Null)) := by
  refine ⟨?_, ?_, ?_⟩ <;> intro vs h <;> simp [astExecute, optExecute, optExecuteStack, h]

/-- C9 witness: a script whose single statement is an assignment completes
without a `return` under all three executors, and each yields `Ok(Null)`. -/
theorem c9_completion_without_return_yields_null_witness :
    executeStatementList 6 astAssignOnly.vars astAssignOnly.statements =
      some (.ok (none, [FullValue.Integer 5])) ∧
    astExecute 6 astAssignOnly astAssignOnly.vars = some (.ok .Null) ∧
    optExecute 6 oastAssignOnly oastAssignOnly.vars = some (.ok .Null) ∧
    optExecuteStack 6 oastAssignOnly oastAssignOnly.vars = some (.ok .Null) := by
  refine ⟨rfl, ?_, ?_, ?_⟩
  · exact (c9_completion_without_return_yields_null 6 astAssignOnly oastAssignOnly).1
      [FullValue.Integer 5] rfl
  · exact (c9_completion_without_return_yields_null 6 astAssignOnly oastAssignOnly).2.1
      [OptimizedVariable.Value (.Integer 5)] rfl
  · exact (c9_completion_without_return_yields_null 6 astAssignOnly oastAssignOnly).2.2
      [OptimizedVariable.Value (.Integer 5)] rfl

/-- C10. When a name does not parse in full as a grammar identifier,
`InputVariable::new` silently replaces it by the fixed string
`"Wrong variable name"` instead of reporting an error; consequently the
variable no longer carries its intended name, so a script cannot reference
it by that name and `push_variable` lookups against the intended name miss. -/
theorem c10_invalid_name_replaced_silently (identParsedLen : String → Option Nat)
    (name : String)
    (h : identParsedLen name = none ∨
      ∃ len, identParsedLen name = some len ∧ len < name.length) :
    (InputVariable.new identParsedLen name).name = "Wrong variable name" ∧
    (name ≠ "Wrong variable name" → (InputVariable.new identParsedLen name).name ≠ name) := by
  have hname : (InputVariable.new identParsedLen name).name = "Wrong variable name" := by
    rcases h with h | ⟨len, hlen, hlt⟩
    · simp [InputVariable.new, h]
    · simp [InputVariable.new, hlen, hlt]
  exact ⟨hname, fun hne => by rw [hname]; exact fun hh => hne hh.symm⟩

/-- C10 witness: the statement at the name `"my var"`, which no identifier
rule parses in full, under a parser that rejects it outright. -/
theorem c10_invalid_name_replaced_silently_witness :
    (InputVariable.new (fun _ => none) "my var").name = "Wrong variable name" ∧
    (InputVariable.new (fun _ => none) "my var").name ≠ "my var" := by
  have h := c10_invalid_name_replaced_silently (fun _ => none) "my var" (Or.inl rfl)
  exact ⟨h.1, h.2 (by decide)⟩

end MoonScript
